import Mathlib

/-!
Shallow embedding of the CU-InSpace ground-station telemetry packet codec
(`packets.py`) and verification of its specification.

Modelling conventions:
* Python strings are `List Char`; slicing `s[a:b]` is `pySlice`, `s[a:]` is
  `List.drop`, and `s[i]` (which can raise `IndexError`) is `pyIndex`.
* Python `int` is `ℕ`/`ℤ`; Python floats produced by `/` are modelled as `ℚ`
  (every float arising in the claims under scrutiny is an exact ratio).
* A raised exception is `Except.error` carrying the kind of failure:
  `ValueError` from an explicit length check is `lengthMismatch`, a failed
  `int(...)` literal parse is `invalidDigit`, a dict miss is `keyError`,
  string indexing out of range is `indexError`, and the arithmetic type
  failure that the unreachable non-bit branch of the KX134 resolution
  decode would cause downstream is `typeError`.
* `int(s, 16)` / `int(s, 2)` are modelled on strings made of an optional
  base prefix followed by digits (no sign, whitespace or underscores: no
  call site can receive those).
-/

inductive DecodeErr where
  | lengthMismatch
  | invalidDigit
  | keyError
  | indexError
  | typeError
deriving DecidableEq

instance {ε α : Type} [DecidableEq ε] [DecidableEq α] : DecidableEq (Except ε α) :=
  fun a b =>
    match a, b with
    | .ok x, .ok y =>
      if h : x = y then .isTrue (by rw [h])
      else .isFalse (by intro hc; cases hc; exact h rfl)
    | .error e, .error f =>
      if h : e = f then .isTrue (by rw [h])
      else .isFalse (by intro hc; cases hc; exact h rfl)
    | .ok _, .error _ => .isFalse (by intro hc; cases hc)
    | .error _, .ok _ => .isFalse (by intro hc; cases hc)

/-- Python slice `s[a:b]` for `0 ≤ a ≤ b` (out-of-range bounds clamp). -/
def pySlice (l : List Char) (a b : ℕ) : List Char := (l.drop a).take (b - a)

/-- Python indexing `s[i]`, raising `IndexError` past the end. -/
def pyIndex (l : List Char) (i : ℕ) : Except DecodeErr Char :=
  match l.get? i with
  | some c => .ok c
  | none => .error .indexError

/-- Digit table of Python `int(_, 16)` (case insensitive). -/
def hexDigitPairs : List (Char × ℕ) :=
  [('0',0),('1',1),('2',2),('3',3),('4',4),('5',5),('6',6),('7',7),('8',8),('9',9),
   ('A',10),('B',11),('C',12),('D',13),('E',14),('F',15),
   ('a',10),('b',11),('c',12),('d',13),('e',14),('f',15)]

/-- Value of one hexadecimal digit as accepted by Python `int(_, 16)`. -/
def hexDigitVal (c : Char) : Except DecodeErr ℕ :=
  match hexDigitPairs.find? (fun p => p.1 == c) with
  | some p => .ok p.2
  | none => .error .invalidDigit

/-- Whether a character is a hexadecimal digit. -/
def isHexDigitC (c : Char) : Bool := (hexDigitVal c).toOption.isSome

/-- Total valuation of a hex digit (0 on non-digits; only used under
`isHexDigitC` hypotheses). -/
def hexCharVal (c : Char) : ℕ := (hexDigitVal c).toOption.getD 0

/-- Value of one binary digit as accepted by Python `int(_, 2)`. -/
def bitDigitVal (c : Char) : Except DecodeErr ℕ :=
  if c = '0' then .ok 0 else if c = '1' then .ok 1 else .error .invalidDigit

/-- Whether a character is a binary digit. -/
def isBitC (c : Char) : Bool := (bitDigitVal c).toOption.isSome

/-- Total valuation of a binary digit. -/
def bitCharVal (c : Char) : ℕ := (bitDigitVal c).toOption.getD 0

/-- Left-to-right digit accumulation of Python's integer literal parser. -/
def digitsValAux (base : ℕ) (dig : Char → Except DecodeErr ℕ) (acc : ℕ) :
    List Char → Except DecodeErr ℕ
  | [] => .ok acc
  | c :: cs => do
      let d ← dig c
      digitsValAux base dig (base * acc + d) cs

/-- Strip the optional base marker (`0x`/`0X` or `0b`/`0B`) that Python
`int(_, base)` accepts at the front of a literal. -/
def pyIntBody (mark markUpper : Char) (s : List Char) : List Char :=
  match s with
  | c0 :: c1 :: rest => if c0 = '0' ∧ (c1 = mark ∨ c1 = markUpper) then rest else s
  | _ => s

/-- `hex_str_to_int` of `packets.py`: Python `int(hex_string, 16)`. -/
def hex_str_to_int (s : List Char) : Except DecodeErr ℕ :=
  match pyIntBody 'x' 'X' s with
  | [] => .error .invalidDigit
  | l => digitsValAux 16 hexDigitVal 0 l

/-- Python `int(bin_string, 2)`. -/
def bin_str_to_int (s : List Char) : Except DecodeErr ℕ :=
  match pyIntBody 'b' 'B' s with
  | [] => .error .invalidDigit
  | l => digitsValAux 2 bitDigitVal 0 l

/-- The `hex_bin_dic` table of `packets.py` as the (key, value) pairs of the
source dict. -/
def hexBinPairs : List (Char × List Char) :=
  [('0', ['0','0','0','0']), ('1', ['0','0','0','1']),
   ('2', ['0','0','1','0']), ('3', ['0','0','1','1']),
   ('4', ['0','1','0','0']), ('5', ['0','1','0','1']),
   ('6', ['0','1','1','0']), ('7', ['0','1','1','1']),
   ('8', ['1','0','0','0']), ('9', ['1','0','0','1']),
   ('A', ['1','0','1','0']), ('B', ['1','0','1','1']),
   ('C', ['1','1','0','0']), ('D', ['1','1','0','1']),
   ('E', ['1','1','1','0']), ('F', ['1','1','1','1']),
   ('a', ['1','0','1','0']), ('b', ['1','0','1','1']),
   ('c', ['1','1','0','0']), ('d', ['1','1','0','1']),
   ('e', ['1','1','1','0']), ('f', ['1','1','1','1'])]

/-- Lookup in `hex_bin_dic`; a missing key is a Python `KeyError`. -/
def hex_bin_dic (c : Char) : Except DecodeErr (List Char) :=
  match hexBinPairs.find? (fun p => p.1 == c) with
  | some p => .ok p.2
  | none => .error .keyError

/-- Total 4-bit expansion of a hex digit (empty on non-digits). -/
def hexCharBits (c : Char) : List Char := (hex_bin_dic c).toOption.getD []

/-- The character-by-character concatenation loop of `hex_to_bin`. -/
def hexBinConcat : List Char → Except DecodeErr (List Char)
  | [] => .ok []
  | c :: cs => do
      let b ← hex_bin_dic c
      let r ← hexBinConcat cs
      .ok (b ++ r)

/-- Prefix handling of `hex_to_bin`: the source strips `0x` only when the
first two characters are exactly the lowercase literal `'0x'`. -/
def hexToBinBody (s : List Char) : List Char :=
  match s with
  | c0 :: c1 :: rest => if c0 = '0' ∧ c1 = 'x' then rest else s
  | _ => s

/-- `hex_to_bin` of `packets.py`: strips a leading lowercase `0x` (and only
lowercase), then maps each character through `hex_bin_dic`. -/
def hex_to_bin (s : List Char) : Except DecodeErr (List Char) :=
  hexBinConcat (hexToBinBody s)

/-- `signed_hex_str_to_int` of `packets.py`. -/
def signed_hex_str_to_int (s : List Char) : Except DecodeErr ℤ := do
  let bin_input ← hex_to_bin s
  let c ← pyIndex bin_input 0
  if c = '1' then do
    let v ← bin_str_to_int bin_input.tail
    .ok ((v : ℤ) - 2 ^ (bin_input.length - 1))
  else do
    let v ← bin_str_to_int bin_input.tail
    .ok (v : ℤ)

/-- Minimal base-`b` digit list of `n`, most significant first, computed with
explicit fuel so that the kernel can evaluate it; `toBaseF b n n` is total
for `b ≥ 2`. -/
def toBaseF (b : ℕ) : ℕ → ℕ → List ℕ
  | 0, n => [n]
  | fuel + 1, n => if n < b then [n] else toBaseF b fuel (n / b) ++ [n % b]

/-- Lowercase digit characters used by Python `hex`/`bin`. -/
def hexDigitChar (d : ℕ) : Char := "0123456789abcdef".toList.getD d '?'

/-- Python `hex(n)` for `n ≥ 0`: lowercase minimal digits with a `0x` prefix. -/
def pyHex (n : ℕ) : List Char := '0' :: 'x' :: (toBaseF 16 n n).map hexDigitChar

/-- Python `bin(n)` for `n ≥ 0`: minimal binary digits with a `0b` prefix. -/
def pyBin (n : ℕ) : List Char := '0' :: 'b' :: (toBaseF 2 n n).map hexDigitChar

/-- `signed_bin_str_to_int` of `packets.py`: re-encodes the parsed value
through Python `hex` before the signed interpretation. -/
def signed_bin_str_to_int (s : List Char) : Except DecodeErr ℤ := do
  let v ← bin_str_to_int s
  signed_hex_str_to_int (pyHex v)

/-- Unsigned value of a hex-digit string (spec-side pure function). -/
def hexVal (l : List Char) : ℕ := l.foldl (fun a c => 16 * a + hexCharVal c) 0

/-- Unsigned value of a bit string (spec-side pure function). -/
def bitsVal (l : List Char) : ℕ := l.foldl (fun a c => 2 * a + bitCharVal c) 0

/-- Full 4-bits-per-nibble expansion of a hex string (spec-side; agrees with
`hex_to_bin` on prefix-free all-digit strings). -/
def hexBitsPure (l : List Char) : List Char := (l.map hexCharBits).flatten

/-- `AltitudeData` record. -/
structure AltitudeData where
  time : ℕ
  pressure : ℚ
  temperature : ℚ
  altitude : ℚ
deriving DecidableEq

/-- `AltitudeData.__convert_raw`: explicit 8-nibble length check, then
`hex_str_to_int`. -/
def AltitudeData.convert_raw (raw_data : List Char) : Except DecodeErr ℕ :=
  if raw_data.length ≠ 8 then .error .lengthMismatch
  else hex_str_to_int raw_data

/-- `AltitudeData.create_from_raw`: the four setters in source order. -/
def AltitudeData.create_from_raw (raw_data : List Char) :
    Except DecodeErr AltitudeData := do
  let time ← AltitudeData.convert_raw (pySlice raw_data 0 8)
  let pressure ← AltitudeData.convert_raw (pySlice raw_data 8 16)
  let temperature ← AltitudeData.convert_raw (pySlice raw_data 16 24)
  let altitude ← AltitudeData.convert_raw (pySlice raw_data 24 32)
  .ok ⟨time, (pressure : ℚ) / 1000, (temperature : ℚ) / 1000, (altitude : ℚ) / 1000⟩

/-- Python `u // 2 ** adj` for a possibly negative exponent (`//` between an
int and a power of two is exact floor division in either regime). -/
def fsrAdjust (u : ℕ) (adj : ℤ) : ℚ := (⌊(u : ℚ) / (2 : ℚ) ^ adj⌋ : ℤ)

/-- `AccelerationData` record (the constructor stores `resolution`). -/
structure AccelerationData where
  resolution : ℤ
  time : ℕ
  fsr : ℚ
  x_axis : ℚ
  y_axis : ℚ
  z_axis : ℚ
deriving DecidableEq

/-- `AccelerationData.__convert_raw`: length check against `hex_length`. -/
def AccelerationData.convert_raw (raw_data : List Char) (hex_length : ℕ) :
    Except DecodeErr ℕ :=
  if raw_data.length ≠ hex_length then .error .lengthMismatch
  else hex_str_to_int raw_data

/-- `AccelerationData.create_from_raw`: time, then fsr (which the axis
setters read), then the three axes. -/
def AccelerationData.create_from_raw (raw_data : List Char) (resolution : ℤ) :
    Except DecodeErr AccelerationData := do
  let time ← AccelerationData.convert_raw (pySlice raw_data 0 8) 8
  let unadjusted_fsr ← AccelerationData.convert_raw (pySlice raw_data 8 12) 4
  let fsr := fsrAdjust unadjusted_fsr (16 - resolution + 1)
  let x ← AccelerationData.convert_raw (pySlice raw_data 12 16) 4
  let y ← AccelerationData.convert_raw (pySlice raw_data 16 20) 4
  let z ← AccelerationData.convert_raw (pySlice raw_data 20 24) 4
  .ok ⟨resolution, time, fsr, (x : ℚ) * fsr / 2 ^ 15, (y : ℚ) * fsr / 2 ^ 15,
    (z : ℚ) * fsr / 2 ^ 15⟩

/-- `AngularVelocityData` record. -/
structure AngularVelocityData where
  time_stamp : ℕ
  fsr : ℚ
  x_velocity : ℚ
  y_velocity : ℚ
  z_velocity : ℚ
deriving DecidableEq

/-- `AngularVelocityData.__init__`: the five `set_*` calls in source order;
no slice is length-checked. -/
def AngularVelocityData.init (raw : List Char) (resolution : ℤ) :
    Except DecodeErr AngularVelocityData := do
  let time_stamp ← hex_str_to_int (pySlice raw 0 8)
  let unadjusted_fsr ← hex_str_to_int (pySlice raw 8 12)
  let fsr := fsrAdjust unadjusted_fsr (16 - (resolution + 1))
  let mx ← hex_str_to_int (pySlice raw 12 16)
  let my ← hex_str_to_int (pySlice raw 16 20)
  let mz ← hex_str_to_int (pySlice raw 20 24)
  .ok ⟨time_stamp, fsr, (mx : ℚ) * (fsr / 2 ^ 15), (my : ℚ) * (fsr / 2 ^ 15),
    (mz : ℚ) * (fsr / 2 ^ 15)⟩

/-- `GNSSMetaData.Info` record. -/
structure SatInfo where
  elevation : ℕ
  SNR : ℕ
  ID : ℕ
  azimuth : ℕ
  type : String
deriving DecidableEq

/-- `GNSSMetaData.Info.setup` over one raw 32-bit window. -/
def SatInfo.setup (raw : List Char) : Except DecodeErr SatInfo := do
  let elevation ← bin_str_to_int (pySlice raw 0 8)
  let snr ← bin_str_to_int (pySlice raw 8 16)
  let id ← bin_str_to_int (pySlice raw 16 21)
  let azimuth ← bin_str_to_int (pySlice raw 21 30)
  let c ← pyIndex raw 31
  .ok ⟨elevation, snr, id, azimuth, if c = '1' then "GLONASS" else "GPS"⟩

/-- Python dict assignment `d[k] = v` on an insertion-ordered association
list: an existing key keeps its position and gets the new value, a new key
is appended. -/
def dictInsert (m : List (ℕ × SatInfo)) (k : ℕ) (v : SatInfo) :
    List (ℕ × SatInfo) :=
  if m.any (fun p => p.1 = k) then
    m.map (fun p => if p.1 = k then (k, v) else p)
  else m ++ [(k, v)]

/-- `GNSSMetaData` record. -/
structure GNSSMetaData where
  mission_time : ℕ
  gps_sats_in_use : List ℕ
  glonass_sats_in_use : List ℕ
  sat_info : List (ℕ × SatInfo)
deriving DecidableEq

/-- The `for i in range(32)` loop of `GNSSMetaData.setup`: both bitmap
strings are indexed at `i` (an out-of-range index is an `IndexError`). -/
def gnssSatsLoop (gpsBits gloBits : List Char) :
    Except DecodeErr (List ℕ × List ℕ) :=
  (List.range 32).foldlM
    (fun acc i => do
      let g ← pyIndex gpsBits i
      let l ← pyIndex gloBits i
      .ok (if g = '1' then acc.1 ++ [i + 1] else acc.1,
        if l = '1' then acc.2 ++ [i + 1] else acc.2))
    ([], [])

/-- `GNSSMetaData.setup`: note the source converts through Python
`bin(int(raw, 16))`, whose result is the `0b` prefix followed by the
minimal (leading-zero-stripped) binary expansion. -/
def GNSSMetaData.setup (raw : List Char) : Except DecodeErr GNSSMetaData := do
  let mission_time ← hex_str_to_int (pySlice raw 0 8)
  let v ← hex_str_to_int raw
  let bin_raw := pyBin v
  let gpsBits := pySlice bin_raw 34 66
  let gloBits := pySlice bin_raw 66 98
  let sats ← gnssSatsLoop gpsBits gloBits
  let sat_info_bits := bin_raw.drop 98
  let num_sats := sat_info_bits.length / 32
  let sat_info ← (List.range num_sats).foldlM
    (fun m i => do
      let meta ← SatInfo.setup (pySlice sat_info_bits (i * 32) (i * 32 + 32))
      .ok (dictInsert m meta.ID meta))
    []
  .ok ⟨mission_time, sats.1, sats.2, sat_info⟩

/-- `GNSSLocationData` record. -/
structure GNSSLocationData where
  fix_time : ℕ
  latitude : ℤ
  longitude : ℤ
  utc_time : ℕ
  altitude : ℕ
  rocket_speed : ℤ
  rocket_course : ℤ
  pdop : ℕ
  hdop : ℕ
  vdop : ℕ
  num_sats : ℕ
  fix_type : String
deriving DecidableEq

/-- `GNSSLocationData.setup`: nibble-aligned fields, then the fix type from
bits [2:4) of the expansion of the tail starting at nibble 62. -/
def GNSSLocationData.setup (raw : List Char) :
    Except DecodeErr GNSSLocationData := do
  let fix_time ← hex_str_to_int (pySlice raw 0 8)
  let latitude ← signed_hex_str_to_int (pySlice raw 8 16)
  let longitude ← signed_hex_str_to_int (pySlice raw 16 24)
  let utc_time ← hex_str_to_int (pySlice raw 24 32)
  let altitude ← hex_str_to_int (pySlice raw 32 40)
  let rocket_speed ← signed_hex_str_to_int (pySlice raw 40 44)
  let rocket_course ← signed_hex_str_to_int (pySlice raw 44 48)
  let pdop ← hex_str_to_int (pySlice raw 48 52)
  let hdop ← hex_str_to_int (pySlice raw 52 56)
  let vdop ← hex_str_to_int (pySlice raw 56 60)
  let num_sats ← hex_str_to_int (pySlice raw 60 62)
  let fix_bits ← hex_to_bin (raw.drop 62)
  let ft ← bin_str_to_int (pySlice fix_bits 2 4)
  let fix_type :=
    if ft = 0 then "unknown" else if ft = 1 then "not available"
    else if ft = 2 then "2D fix" else if ft = 3 then "3D fix" else "error"
  .ok ⟨fix_time, latitude, longitude, utc_time, altitude, rocket_speed,
    rocket_course, pdop, hdop, vdop, num_sats, fix_type⟩

/-- `KX134_1211Data.Measurement` record; fields start as Python `None` and
stay `None` unless one of the two recognized window lengths matches. -/
structure KXMeasurement where
  x_accel : Option ℤ
  y_accel : Option ℤ
  z_accel : Option ℤ
deriving DecidableEq

/-- `KX134_1211Data.Measurement.setup`. -/
def KXMeasurement.setup (raw : List Char) : Except DecodeErr KXMeasurement :=
  if raw.length = 24 then do
    let x ← signed_bin_str_to_int (pySlice raw 0 8)
    let y ← signed_bin_str_to_int (pySlice raw 8 16)
    let z ← signed_bin_str_to_int (pySlice raw 16 24)
    .ok ⟨some x, some y, some z⟩
  else if raw.length = 48 then do
    let x ← bin_str_to_int (pySlice raw 0 16)
    let y ← bin_str_to_int (pySlice raw 16 32)
    let z ← bin_str_to_int (pySlice raw 32 48)
    .ok ⟨some (x : ℤ), some (y : ℤ), some (z : ℤ)⟩
  else .ok ⟨none, none, none⟩

/-- The `kx134_1211_dic` sample-rate table, keyed by Python `hex(...)`
strings exactly as in the source (uppercase `A`–`F` entries duplicate the
lowercase ones). -/
def kxRatePairs : List (List Char × ℚ) :=
  [(['0','x','0'], 781 / 1000), (['0','x','1'], 1563 / 1000),
   (['0','x','2'], 3125 / 1000), (['0','x','3'], 625 / 100),
   (['0','x','4'], 125 / 10), (['0','x','5'], 25),
   (['0','x','6'], 50), (['0','x','7'], 100),
   (['0','x','8'], 200), (['0','x','9'], 400),
   (['0','x','A'], 800), (['0','x','B'], 1600),
   (['0','x','C'], 3200), (['0','x','D'], 6400),
   (['0','x','E'], 12800), (['0','x','F'], 25600),
   (['0','x','a'], 800), (['0','x','b'], 1600),
   (['0','x','c'], 3200), (['0','x','d'], 6400),
   (['0','x','e'], 12800), (['0','x','f'], 25600)]

/-- Lookup in `kx134_1211_dic`; a miss is a Python `KeyError`. -/
def kx134_1211_dic (key : List Char) : Except DecodeErr ℚ :=
  match kxRatePairs.find? (fun p => p.1 == key) with
  | some p => .ok p.2
  | none => .error .keyError

/-- Python `range(0, stop, step)` for `step > 0`. -/
def rangeStep (stop step : ℕ) : List ℕ :=
  (List.range ((stop + step - 1) / step)).map (fun i => i * step)

/-- `KX134_1211Data` record (`resolution` and `padding` are locals of
`setup` in the source, not fields). -/
structure KX1341211Data where
  time_stamp : ℕ
  data_rate : ℚ
  full_scale_range : ℤ
  corner_freq : Option ℚ
  measurements : List KXMeasurement
deriving DecidableEq

/-- `KX134_1211Data.setup`. The non-bit branches cannot fire on `hex_to_bin`
output; a non-bit resolution character would leave `resolution` a string and
make the later `range(..., chunk_size)` raise a `TypeError`. -/
def KX1341211Data.setup (raw : List Char) : Except DecodeErr KX1341211Data := do
  let raw_bin ← hex_to_bin raw
  let time_stamp ← bin_str_to_int (pySlice raw_bin 0 32)
  let drv ← bin_str_to_int (pySlice raw_bin 32 36)
  let data_rate ← kx134_1211_dic (pyHex drv)
  let fsrv ← bin_str_to_int (pySlice raw_bin 36 38)
  let full_scale_range : ℤ :=
    if fsrv = 0 then 8 else if fsrv = 1 then 16 else if fsrv = 2 then 32
    else if fsrv = 3 then 64 else -1
  let c38 ← pyIndex raw_bin 38
  let corner_freq : Option ℚ :=
    if c38 = '0' then some (data_rate / 9)
    else if c38 = '1' then some (data_rate / 2) else none
  let c39 ← pyIndex raw_bin 39
  let resolution : ℕ ←
    if c39 = '0' then .ok 8 else if c39 = '1' then .ok 16
    else .error .typeError
  let pv ← bin_str_to_int (pySlice raw_bin 46 48)
  let padding := pv * 8
  let accel_data := raw_bin.drop 48
  let chunk_size := resolution * 3
  let chunks := (rangeStep (accel_data.length - padding) chunk_size).map
    (fun i => pySlice accel_data i (i + chunk_size))
  let measurements ← chunks.mapM KXMeasurement.setup
  .ok ⟨time_stamp, data_rate, full_scale_range, corner_freq, measurements⟩

/-! ## Generic valuation lemmas -/

lemma foldlVal_acc {α : Type} (base : ℕ) (v : α → ℕ) (l : List α) (acc : ℕ) :
    l.foldl (fun a c => base * a + v c) acc
      = acc * base ^ l.length + l.foldl (fun a c => base * a + v c) 0 := by
  induction l generalizing acc with
  | nil => simp
  | cons c t ih =>
    simp only [List.foldl_cons, List.length_cons]
    rw [ih (base * acc + v c), ih (base * 0 + v c)]
    ring

lemma foldlVal_lt {α : Type} (base : ℕ) (hb : 0 < base) (v : α → ℕ) (l : List α)
    (h : ∀ a ∈ l, v a < base) :
    l.foldl (fun a c => base * a + v c) 0 < base ^ l.length := by
  induction l with
  | nil => simp
  | cons c t ih =>
    simp only [List.foldl_cons, List.length_cons]
    rw [foldlVal_acc]
    have h1 := ih (fun a ha => h a (List.mem_cons_of_mem _ ha))
    have h2 : v c < base := h c (List.mem_cons_self _ _)
    have h3 : (0:ℕ) < base ^ t.length := pow_pos hb _
    have : (base * 0 + v c) * base ^ t.length ≤ (base - 1) * base ^ t.length := by
      apply Nat.mul_le_mul_right
      omega
    calc (base * 0 + v c) * base ^ t.length + t.foldl (fun a c => base * a + v c) 0
        < (base - 1) * base ^ t.length + base ^ t.length := by omega
      _ ≤ base ^ (t.length + 1) := by
          rw [pow_succ]
          have : (base - 1) * base ^ t.length + base ^ t.length
              = ((base - 1) + 1) * base ^ t.length := by ring
          rw [this]
          have : base - 1 + 1 = base := by omega
          rw [this, mul_comm]

/-! ## Digit lemmas -/

lemma hexDigitVal_eq_ok {c : Char} (h : isHexDigitC c = true) :
    hexDigitVal c = .ok (hexCharVal c) := by
  unfold isHexDigitC at h
  unfold hexCharVal
  cases hd : hexDigitVal c with
  | ok d => simp [hd, Except.toOption]
  | error e => rw [hd] at h; simp [Except.toOption] at h

lemma bitDigitVal_eq_ok {c : Char} (h : isBitC c = true) :
    bitDigitVal c = .ok (bitCharVal c) := by
  unfold isBitC at h
  unfold bitCharVal
  cases hd : bitDigitVal c with
  | ok d => simp [hd, Except.toOption]
  | error e => rw [hd] at h; simp [Except.toOption] at h

lemma bitCharVal_lt_two (c : Char) : bitCharVal c < 2 := by
  unfold bitCharVal bitDigitVal
  split_ifs <;> simp [Except.toOption]

lemma hexDigitVal_lt {c : Char} {d : ℕ} (h : hexDigitVal c = .ok d) : d < 16 := by
  unfold hexDigitVal at h
  cases hf : hexDigitPairs.find? (fun p => p.1 == c) with
  | none => rw [hf] at h; cases h
  | some p =>
    rw [hf] at h
    cases h
    have hmem := List.mem_of_find?_eq_some hf
    have hall : ∀ q ∈ hexDigitPairs, q.2 < 16 := by decide
    exact hall p hmem

lemma hexCharVal_lt_sixteen (c : Char) : hexCharVal c < 16 := by
  unfold hexCharVal
  cases hd : hexDigitVal c with
  | ok d => simpa [Except.toOption] using hexDigitVal_lt hd
  | error e => simp [Except.toOption]

lemma isBitC_cases {c : Char} (h : isBitC c = true) : c = '0' ∨ c = '1' := by
  unfold isBitC bitDigitVal at h
  split_ifs at h with h0 h1
  · exact Or.inl h0
  · exact Or.inr h1
  · simp [Except.toOption] at h

lemma hexDigitChar_bit {c : Char} (h : isBitC c = true) :
    hexDigitChar (bitCharVal c) = c := by
  rcases isBitC_cases h with rfl | rfl <;> decide

lemma hexDigitChar_val {d : ℕ} (hd : d < 16) :
    isHexDigitC (hexDigitChar d) = true ∧ hexCharVal (hexDigitChar d) = d := by
  interval_cases d <;> exact ⟨by decide, by decide⟩

lemma hexCharBits_spec {c : Char} (h : isHexDigitC c = true) :
    hex_bin_dic c = .ok (hexCharBits c) ∧ (hexCharBits c).length = 4 ∧
      (∀ b ∈ hexCharBits c, isBitC b = true) ∧
      bitsVal (hexCharBits c) = hexCharVal c := by
  unfold isHexDigitC hexDigitVal at h
  cases hf : hexDigitPairs.find? (fun p => p.1 == c) with
  | none => rw [hf] at h; simp [Except.toOption] at h
  | some p =>
    have hmem := List.mem_of_find?_eq_some hf
    have hc : p.1 = c := by
      have := List.find?_some hf
      exact eq_of_beq this
    have hall : ∀ q ∈ hexDigitPairs,
        ((hexBinPairs.find? (fun r => r.1 == q.1)).elim false (fun r =>
          r.2.length == 4 && r.2.all isBitC && bitsVal r.2 == q.2)) = true := by
      decide
    have hq := hall p hmem
    subst hc
    cases hb : hexBinPairs.find? (fun r => r.1 == p.1) with
    | none => rw [hb] at hq; exact absurd hq (by simp)
    | some r =>
      rw [hb] at hq
      simp only [Option.elim_some, Bool.and_eq_true, beq_iff_eq, List.all_eq_true] at hq
      have hval : hexCharVal p.1 = p.2 := by
        unfold hexCharVal hexDigitVal
        rw [hf]
        simp [Except.toOption]
      have hdic : hex_bin_dic p.1 = .ok r.2 := by
        unfold hex_bin_dic
        rw [hb]
      have hbits : hexCharBits p.1 = r.2 := by
        unfold hexCharBits
        rw [hdic]
        simp [Except.toOption]
      rw [hbits, hdic, hval]
      exact ⟨rfl, hq.1.1, hq.1.2, hq.2⟩

/-! ## Parser lemmas -/

@[simp] lemma exceptPure {α : Type} (a : α) :
    (pure a : Except DecodeErr α) = .ok a := rfl

@[simp] lemma exceptOkBind {α β : Type} (a : α) (f : α → Except DecodeErr β) :
    (Except.ok a : Except DecodeErr α) >>= f = f a := rfl

@[simp] lemma exceptErrorBind {α β : Type} (e : DecodeErr)
    (f : α → Except DecodeErr β) :
    (Except.error e : Except DecodeErr α) >>= f = .error e := rfl

lemma pyIntBody_eq_self {mark markUpper : Char} {s : List Char}
    (h : ∀ rest : List Char, s ≠ '0' :: mark :: rest ∧ s ≠ '0' :: markUpper :: rest) :
    pyIntBody mark markUpper s = s := by
  unfold pyIntBody
  cases s with
  | nil => rfl
  | cons c0 t =>
    cases t with
    | nil => rfl
    | cons c1 rest =>
      have := h rest
      show (if c0 = '0' ∧ (c1 = mark ∨ c1 = markUpper) then rest
        else c0 :: c1 :: rest) = c0 :: c1 :: rest
      split_ifs with hc
      · obtain ⟨h0, h1⟩ := hc
        subst h0
        rcases h1 with rfl | rfl
        · exact absurd rfl this.1
        · exact absurd rfl this.2
      · rfl

lemma hexToBinBody_eq_self {s : List Char}
    (h : ∀ rest : List Char, s ≠ '0' :: 'x' :: rest) :
    hexToBinBody s = s := by
  unfold hexToBinBody
  cases s with
  | nil => rfl
  | cons c0 t =>
    cases t with
    | nil => rfl
    | cons c1 rest =>
      show (if c0 = '0' ∧ c1 = 'x' then rest else c0 :: c1 :: rest)
        = c0 :: c1 :: rest
      split_ifs with hc
      · obtain ⟨h0, h1⟩ := hc
        subst h0
        subst h1
        exact absurd rfl (h rest)
      · rfl

lemma not_prefixed_of_digits {s : List Char} {c : Char}
    (h : ∀ a ∈ s, isHexDigitC a = true) (hc : isHexDigitC c = false) :
    ∀ rest : List Char, s ≠ '0' :: c :: rest := by
  intro rest hcontra
  have : isHexDigitC c = true :=
    h c (by rw [hcontra]; exact List.mem_cons_of_mem _ (List.mem_cons_self _ _))
  rw [hc] at this
  cases this

lemma not_bit_prefixed {s : List Char} {c : Char}
    (h : ∀ a ∈ s, isBitC a = true) (hc : isBitC c = false) :
    ∀ rest : List Char, s ≠ '0' :: c :: rest := by
  intro rest hcontra
  have : isBitC c = true :=
    h c (by rw [hcontra]; exact List.mem_cons_of_mem _ (List.mem_cons_self _ _))
  rw [hc] at this
  cases this

lemma digitsValAux_ok {dig : Char → Except DecodeErr ℕ} {v : Char → ℕ} (base : ℕ)
    (l : List Char) (acc : ℕ) (h : ∀ c ∈ l, dig c = .ok (v c)) :
    digitsValAux base dig acc l = .ok (l.foldl (fun a c => base * a + v c) acc) := by
  induction l generalizing acc with
  | nil => rfl
  | cons c t ih =>
    have hc := h c (List.mem_cons_self _ _)
    simp only [digitsValAux, hc, exceptOkBind, List.foldl_cons]
    exact ih _ (fun x hx => h x (List.mem_cons_of_mem _ hx))

lemma hex_str_to_int_ok {l : List Char} (hne : l ≠ [])
    (h : ∀ c ∈ l, isHexDigitC c = true) :
    hex_str_to_int l = .ok (hexVal l) := by
  have hbody : pyIntBody 'x' 'X' l = l :=
    pyIntBody_eq_self (fun rest =>
      ⟨not_prefixed_of_digits h (by decide) rest,
       not_prefixed_of_digits h (by decide) rest⟩)
  unfold hex_str_to_int
  rw [hbody]
  cases l with
  | nil => exact absurd rfl hne
  | cons c t =>
    exact digitsValAux_ok 16 (c :: t) 0 (fun x hx => hexDigitVal_eq_ok (h x hx))

lemma bin_str_to_int_ok {l : List Char} (hne : l ≠ [])
    (h : ∀ c ∈ l, isBitC c = true) :
    bin_str_to_int l = .ok (bitsVal l) := by
  have hbody : pyIntBody 'b' 'B' l = l :=
    pyIntBody_eq_self (fun rest =>
      ⟨not_bit_prefixed h (by decide) rest, not_bit_prefixed h (by decide) rest⟩)
  unfold bin_str_to_int
  rw [hbody]
  cases l with
  | nil => exact absurd rfl hne
  | cons c t =>
    exact digitsValAux_ok 2 (c :: t) 0 (fun x hx => bitDigitVal_eq_ok (h x hx))

/-! ## Expansion lemmas -/

lemma hexBitsPure_cons (c : Char) (t : List Char) :
    hexBitsPure (c :: t) = hexCharBits c ++ hexBitsPure t := by
  simp [hexBitsPure]

lemma hexBinConcat_ok {l : List Char} (h : ∀ c ∈ l, isHexDigitC c = true) :
    hexBinConcat l = .ok (hexBitsPure l) := by
  induction l with
  | nil => rfl
  | cons c t ih =>
    have hc := (hexCharBits_spec (h c (List.mem_cons_self _ _))).1
    simp only [hexBinConcat, hc, exceptOkBind,
      ih (fun x hx => h x (List.mem_cons_of_mem _ hx)), hexBitsPure_cons]

lemma hex_to_bin_ok {l : List Char} (h : ∀ c ∈ l, isHexDigitC c = true) :
    hex_to_bin l = .ok (hexBitsPure l) := by
  unfold hex_to_bin
  rw [hexToBinBody_eq_self (not_prefixed_of_digits h (by decide))]
  exact hexBinConcat_ok h

lemma hexBitsPure_length {l : List Char} (h : ∀ c ∈ l, isHexDigitC c = true) :
    (hexBitsPure l).length = 4 * l.length := by
  induction l with
  | nil => rfl
  | cons c t ih =>
    rw [hexBitsPure_cons, List.length_append,
      (hexCharBits_spec (h c (List.mem_cons_self _ _))).2.1,
      ih (fun x hx => h x (List.mem_cons_of_mem _ hx)), List.length_cons]
    ring

lemma hexBitsPure_bits {l : List Char} (h : ∀ c ∈ l, isHexDigitC c = true) :
    ∀ b ∈ hexBitsPure l, isBitC b = true := by
  induction l with
  | nil => intro b hb; cases hb
  | cons c t ih =>
    intro b hb
    rw [hexBitsPure_cons] at hb
    rcases List.mem_append.mp hb with hb | hb
    · exact (hexCharBits_spec (h c (List.mem_cons_self _ _))).2.2.1 b hb
    · exact ih (fun x hx => h x (List.mem_cons_of_mem _ hx)) b hb

lemma hexBitsPure_foldl {l : List Char} (h : ∀ c ∈ l, isHexDigitC c = true)
    (acc : ℕ) :
    (hexBitsPure l).foldl (fun a x => 2 * a + bitCharVal x) acc
      = l.foldl (fun a c => 16 * a + hexCharVal c) acc := by
  induction l generalizing acc with
  | nil => rfl
  | cons c t ih =>
    obtain ⟨-, hlen, -, hval⟩ := hexCharBits_spec (h c (List.mem_cons_self _ _))
    rw [hexBitsPure_cons, List.foldl_append, List.foldl_cons]
    have hacc : (hexCharBits c).foldl (fun a x => 2 * a + bitCharVal x) acc
        = 16 * acc + hexCharVal c := by
      rw [foldlVal_acc 2 bitCharVal (hexCharBits c) acc, hlen]
      unfold bitsVal at hval
      rw [hval]
      ring
    rw [hacc]
    exact ih (fun x hx => h x (List.mem_cons_of_mem _ hx)) _

lemma bitsVal_hexBitsPure {l : List Char} (h : ∀ c ∈ l, isHexDigitC c = true) :
    bitsVal (hexBitsPure l) = hexVal l :=
  hexBitsPure_foldl h 0

lemma bitsVal_lt {l : List Char} : bitsVal l < 2 ^ l.length :=
  foldlVal_lt 2 (by omega) bitCharVal l (fun a _ => bitCharVal_lt_two a)

lemma hexVal_lt {l : List Char} : hexVal l < 16 ^ l.length :=
  foldlVal_lt 16 (by omega) hexCharVal l (fun a _ => hexCharVal_lt_sixteen a)

lemma bitsVal_cons (c : Char) (t : List Char) :
    bitsVal (c :: t) = bitCharVal c * 2 ^ t.length + bitsVal t := by
  unfold bitsVal
  rw [List.foldl_cons, foldlVal_acc 2 bitCharVal t (2 * 0 + bitCharVal c)]
  ring

lemma hexVal_cons (c : Char) (t : List Char) :
    hexVal (c :: t) = hexCharVal c * 16 ^ t.length + hexVal t := by
  unfold hexVal
  rw [List.foldl_cons, foldlVal_acc 16 hexCharVal t (16 * 0 + hexCharVal c)]
  ring

/-! ## Signed decoding -/

/-- Two's-complement value over the exact 4-bit-per-digit width of a hex
string, as the spec defines `signed_from_bits` on hex input. -/
def specSignedHex (l : List Char) : ℤ :=
  if 2 ^ (4 * l.length - 1) ≤ hexVal l
  then (hexVal l : ℤ) - 2 ^ (4 * l.length) else (hexVal l : ℤ)

lemma signed_hex_str_to_int_ok {l : List Char} (hne : l ≠ [])
    (h : ∀ c ∈ l, isHexDigitC c = true) :
    signed_hex_str_to_int l = .ok (specSignedHex l) := by
  have hb := hex_to_bin_ok h
  have hlenB : (hexBitsPure l).length = 4 * l.length := hexBitsPure_length h
  have hbitsB := hexBitsPure_bits h
  have hvalB : bitsVal (hexBitsPure l) = hexVal l := bitsVal_hexBitsPure h
  have hLpos : 0 < l.length := List.length_pos.mpr hne
  cases hB : hexBitsPure l with
  | nil =>
    rw [hB] at hlenB
    simp only [List.length_nil] at hlenB
    omega
  | cons b t =>
    rw [hB] at hlenB hbitsB hvalB
    have hbbit : isBitC b = true := hbitsB b (List.mem_cons_self _ _)
    have htbits : ∀ c ∈ t, isBitC c = true :=
      fun c hc => hbitsB c (List.mem_cons_of_mem _ hc)
    have htlen : t.length = 4 * l.length - 1 := by
      simp at hlenB; omega
    have htne : t ≠ [] := by
      intro hcontra
      rw [hcontra] at htlen
      simp at htlen
      omega
    have hdec : bitsVal (b :: t) = bitCharVal b * 2 ^ t.length + bitsVal t :=
      bitsVal_cons b t
    have htlt : bitsVal t < 2 ^ t.length := bitsVal_lt
    have hparse : bin_str_to_int (b :: t).tail = .ok (bitsVal t) := by
      simpa using bin_str_to_int_ok htne htbits
    unfold signed_hex_str_to_int
    rw [hb, hB]
    simp only [exceptOkBind]
    have hidx : pyIndex (b :: t) 0 = .ok b := rfl
    rw [hidx]
    simp only [exceptOkBind]
    unfold specSignedHex
    rcases isBitC_cases hbbit with rfl | rfl
    · have hv0 : bitCharVal '0' = 0 := by decide
      rw [hv0] at hdec
      simp only [if_neg (by decide : ¬('0' = '1'))]
      rw [hparse]
      simp only [exceptOkBind]
      have hlow : ¬ (2 ^ (4 * l.length - 1) ≤ hexVal l) := by
        rw [← hvalB, hdec]
        push_neg
        calc 0 * 2 ^ t.length + bitsVal t = bitsVal t := by ring_nf
          _ < 2 ^ t.length := htlt
          _ ≤ 2 ^ (4 * l.length - 1) := by rw [htlen]
      rw [if_neg hlow, ← hvalB, hdec]
      norm_num
    · have hv1 : bitCharVal '1' = 1 := by decide
      rw [hv1] at hdec
      simp only [if_pos (rfl : ('1' : Char) = '1')]
      rw [hparse]
      simp only [exceptOkBind]
      have hhi : 2 ^ (4 * l.length - 1) ≤ hexVal l := by
        rw [← hvalB, hdec, htlen]
        omega
      rw [if_pos hhi, ← hvalB, hdec, htlen]
      have hlt1 : ('1' :: t).length - 1 = 4 * l.length - 1 := by
        simp only [List.length_cons]
        omega
      rw [hlt1]
      have hsplit : 4 * l.length = (4 * l.length - 1) + 1 := by omega
      rw [hsplit, pow_succ]
      push_cast
      ring_nf

/-! ## Minimal-digit encodings (`hex`, `bin`) -/

lemma foldlValN_acc (b : ℕ) (l : List ℕ) (acc : ℕ) :
    l.foldl (fun a d => b * a + d) acc
      = acc * b ^ l.length + l.foldl (fun a d => b * a + d) 0 := by
  induction l generalizing acc with
  | nil => simp
  | cons c t ih =>
    simp only [List.foldl_cons, List.length_cons]
    rw [ih (b * acc + c), ih (b * 0 + c)]
    ring

lemma foldlValN_lt (b : ℕ) (hb : 0 < b) (l : List ℕ) (h : ∀ d ∈ l, d < b) :
    l.foldl (fun a d => b * a + d) 0 < b ^ l.length := by
  induction l with
  | nil => simp
  | cons c t ih =>
    simp only [List.foldl_cons, List.length_cons]
    rw [foldlValN_acc]
    have h1 := ih (fun a ha => h a (List.mem_cons_of_mem _ ha))
    have h2 : c < b := h c (List.mem_cons_self _ _)
    have h3 : (0:ℕ) < b ^ t.length := pow_pos hb _
    have hle : (b * 0 + c) * b ^ t.length ≤ (b - 1) * b ^ t.length := by
      apply Nat.mul_le_mul_right
      omega
    calc (b * 0 + c) * b ^ t.length + t.foldl (fun a d => b * a + d) 0
        < (b - 1) * b ^ t.length + b ^ t.length := by omega
      _ ≤ b ^ (t.length + 1) := by
          rw [pow_succ]
          have he : (b - 1) * b ^ t.length + b ^ t.length
              = ((b - 1) + 1) * b ^ t.length := by ring
          rw [he]
          have he2 : b - 1 + 1 = b := by omega
          rw [he2, mul_comm]

lemma toBaseF_val (b : ℕ) (hb : 2 ≤ b) :
    ∀ fuel n, n ≤ fuel → (toBaseF b fuel n).foldl (fun a d => b * a + d) 0 = n := by
  intro fuel
  induction fuel with
  | zero =>
    intro n hn
    have : n = 0 := by omega
    subst this
    simp [toBaseF]
  | succ f ih =>
    intro n hn
    rw [toBaseF]
    split_ifs with hlt
    · simp
    · have hdiv : n / b ≤ f := by
        have h1 : n / b < n := Nat.div_lt_self (by omega) (by omega)
        omega
      rw [List.foldl_append, ih _ hdiv]
      simp only [List.foldl_cons, List.foldl_nil]
      exact Nat.div_add_mod n b

lemma toBaseF_digits_lt (b : ℕ) (hb : 2 ≤ b) :
    ∀ fuel n, n ≤ fuel → ∀ d ∈ toBaseF b fuel n, d < b := by
  intro fuel
  induction fuel with
  | zero =>
    intro n hn d hd
    have : n = 0 := by omega
    subst this
    simp [toBaseF] at hd
    omega
  | succ f ih =>
    intro n hn d hd
    rw [toBaseF] at hd
    split_ifs at hd with hlt
    · simp at hd; omega
    · have hdiv : n / b ≤ f := by
        have h1 : n / b < n := Nat.div_lt_self (by omega) (by omega)
        omega
      rcases List.mem_append.mp hd with hd | hd
      · exact ih _ hdiv d hd
      · simp at hd
        subst hd
        exact Nat.mod_lt _ (by omega)

lemma toBaseF_length (b : ℕ) (hb : 2 ≤ b) :
    ∀ fuel n, n ≤ fuel → (toBaseF b fuel n).length = Nat.log b n + 1 := by
  intro fuel
  induction fuel with
  | zero =>
    intro n hn
    have : n = 0 := by omega
    subst this
    simp [toBaseF]
  | succ f ih =>
    intro n hn
    rw [toBaseF]
    split_ifs with hlt
    · simp [Nat.log_eq_zero_iff, hlt]
    · have hdiv : n / b ≤ f := by
        have h1 : n / b < n := Nat.div_lt_self (by omega) (by omega)
        omega
      rw [List.length_append, ih _ hdiv]
      simp only [List.length_cons, List.length_nil]
      have hlog : Nat.log b (n / b) = Nat.log b n - 1 := Nat.log_div_base b n
      have hpos : 0 < Nat.log b n := Nat.log_pos (by omega) (by omega)
      omega

lemma toBaseF_ne_nil (b fuel n : ℕ) : toBaseF b fuel n ≠ [] := by
  cases fuel with
  | zero => simp [toBaseF]
  | succ f =>
    rw [toBaseF]
    split_ifs
    · simp
    · simp

lemma digitsFoldN_inj (b : ℕ) (hb : 2 ≤ b) :
    ∀ l1 l2 : List ℕ, l1.length = l2.length → (∀ d ∈ l1, d < b) →
      (∀ d ∈ l2, d < b) →
      l1.foldl (fun a d => b * a + d) 0 = l2.foldl (fun a d => b * a + d) 0 →
      l1 = l2 := by
  intro l1
  induction l1 with
  | nil =>
    intro l2 hlen _ _ _
    cases l2 with
    | nil => rfl
    | cons c t => simp at hlen
  | cons c1 t1 ih =>
    intro l2 hlen h1 h2 hval
    cases l2 with
    | nil => simp at hlen
    | cons c2 t2 =>
      simp only [List.length_cons] at hlen
      have hlen' : t1.length = t2.length := by omega
      simp only [List.foldl_cons] at hval
      rw [foldlValN_acc b t1, foldlValN_acc b t2, hlen'] at hval
      have hr1 : t1.foldl (fun a d => b * a + d) 0 < b ^ t2.length := by
        rw [← hlen']
        exact foldlValN_lt b (by omega) t1 (fun d hd => h1 d (List.mem_cons_of_mem _ hd))
      have hr2 : t2.foldl (fun a d => b * a + d) 0 < b ^ t2.length :=
        foldlValN_lt b (by omega) t2 (fun d hd => h2 d (List.mem_cons_of_mem _ hd))
      have hc1 : c1 < b := h1 c1 (List.mem_cons_self _ _)
      have hc2 : c2 < b := h2 c2 (List.mem_cons_self _ _)
      have hX : (0:ℕ) < b ^ t2.length := pow_pos (by omega) _
      have hcc : c1 = c2 := by
        rcases Nat.lt_trichotomy c1 c2 with hlt | heq | hgt
        · exfalso
          nlinarith [hval, hr1, hr2]
        · exact heq
        · exfalso
          nlinarith [hval, hr1, hr2]
      subst hcc
      have hteq : t1.foldl (fun a d => b * a + d) 0 = t2.foldl (fun a d => b * a + d) 0 := by
        omega
      rw [ih t2 hlen' (fun d hd => h1 d (List.mem_cons_of_mem _ hd))
        (fun d hd => h2 d (List.mem_cons_of_mem _ hd)) hteq]

lemma foldl_congr_mem {l : List ℕ} {f g : ℕ → ℕ → ℕ}
    (h : ∀ d ∈ l, ∀ a, f a d = g a d) : ∀ a, l.foldl f a = l.foldl g a := by
  induction l with
  | nil => intro a; rfl
  | cons c t ih =>
    intro a
    simp only [List.foldl_cons]
    rw [h c (List.mem_cons_self _ _) a]
    exact ih (fun d hd a => h d (List.mem_cons_of_mem _ hd) a) _

lemma pyBin_eq_full {n : ℕ} {full : List Char}
    (hf : ∀ c ∈ full, isBitC c = true) (hlen : 0 < full.length)
    (hval : bitsVal full = n) (hhi : 2 ^ (full.length - 1) ≤ n) :
    pyBin n = '0' :: 'b' :: full := by
  have hup : n < 2 ^ full.length := hval ▸ bitsVal_lt
  have hlog : Nat.log 2 n = full.length - 1 := by
    apply Nat.log_eq_of_pow_le_of_lt_pow hhi
    rw [Nat.sub_add_cancel hlen]
    exact hup
  have hMlen : (toBaseF 2 n n).length = full.length := by
    rw [toBaseF_length 2 (by omega) n n le_rfl, hlog]
    omega
  have hMdig : ∀ d ∈ toBaseF 2 n n, d < 2 :=
    toBaseF_digits_lt 2 (by omega) n n le_rfl
  have hMval : (toBaseF 2 n n).foldl (fun a d => 2 * a + d) 0 = n :=
    toBaseF_val 2 (by omega) n n le_rfl
  have hNdig : ∀ d ∈ full.map bitCharVal, d < 2 := by
    intro d hd
    obtain ⟨c, _, rfl⟩ := List.mem_map.mp hd
    exact bitCharVal_lt_two c
  have hNval : (full.map bitCharVal).foldl (fun a d => 2 * a + d) 0 = n := by
    rw [List.foldl_map]
    exact hval
  have hMN : toBaseF 2 n n = full.map bitCharVal :=
    digitsFoldN_inj 2 le_rfl _ _ (by rw [hMlen, List.length_map]) hMdig hNdig
      (hMval.trans hNval.symm)
  unfold pyBin
  rw [hMN, List.map_map]
  congr 2
  calc full.map (hexDigitChar ∘ bitCharVal)
      = full.map id := List.map_congr_left (fun c hc => hexDigitChar_bit (hf c hc))
    _ = full := List.map_id full

/-- Value actually produced by `signed_bin_str_to_int` on a bit string of
value `n`: two's complement over the width of the *minimal* hex encoding of
`n` (4·(log16 n + 1) bits), not over the width of the input. -/
def specSignedBin (n : ℕ) : ℤ :=
  if 2 ^ (4 * (Nat.log 16 n + 1) - 1) ≤ n
  then (n : ℤ) - 2 ^ (4 * (Nat.log 16 n + 1)) else (n : ℤ)

lemma signed_hex_pyHex (n : ℕ) :
    signed_hex_str_to_int (pyHex n) = .ok (specSignedBin n) := by
  have hDdig : ∀ c ∈ (toBaseF 16 n n).map hexDigitChar, isHexDigitC c = true := by
    intro c hc
    obtain ⟨d, hd, rfl⟩ := List.mem_map.mp hc
    exact (hexDigitChar_val (toBaseF_digits_lt 16 (by omega) n n le_rfl d hd)).1
  have hDne : (toBaseF 16 n n).map hexDigitChar ≠ [] := by
    intro hcontra
    exact toBaseF_ne_nil 16 n n (List.map_eq_nil_iff.mp hcontra)
  have hDval : hexVal ((toBaseF 16 n n).map hexDigitChar) = n := by
    unfold hexVal
    rw [List.foldl_map]
    have hcongr := foldl_congr_mem
      (l := toBaseF 16 n n)
      (f := fun a d => 16 * a + hexCharVal (hexDigitChar d))
      (g := fun a d => 16 * a + d)
      (fun d hd a => by
        show 16 * a + hexCharVal (hexDigitChar d) = 16 * a + d
        rw [(hexDigitChar_val (toBaseF_digits_lt 16 (by omega) n n le_rfl d hd)).2])
    rw [hcongr 0]
    exact toBaseF_val 16 (by omega) n n le_rfl
  have hDlen : ((toBaseF 16 n n).map hexDigitChar).length = Nat.log 16 n + 1 := by
    rw [List.length_map]
    exact toBaseF_length 16 (by omega) n n le_rfl
  have hstrip : hex_to_bin (pyHex n) = hex_to_bin ((toBaseF 16 n n).map hexDigitChar) := by
    unfold hex_to_bin
    congr 1
    have h1 : hexToBinBody (pyHex n) = (toBaseF 16 n n).map hexDigitChar := by
      unfold pyHex hexToBinBody
      simp
    rw [h1, hexToBinBody_eq_self (not_prefixed_of_digits hDdig (by decide))]
  have hok := signed_hex_str_to_int_ok hDne hDdig
  have heq : signed_hex_str_to_int (pyHex n)
      = signed_hex_str_to_int ((toBaseF 16 n n).map hexDigitChar) := by
    unfold signed_hex_str_to_int
    rw [hstrip]
  rw [heq, hok]
  unfold specSignedHex specSignedBin
  rw [hDval, hDlen]

lemma signed_bin_str_to_int_ok {l : List Char} (hne : l ≠ [])
    (h : ∀ c ∈ l, isBitC c = true) :
    signed_bin_str_to_int l = .ok (specSignedBin (bitsVal l)) := by
  unfold signed_bin_str_to_int
  rw [bin_str_to_int_ok hne h]
  simp only [exceptOkBind]
  exact signed_hex_pyHex _

/-! ## Slice lemmas -/

lemma pySlice_length (l : List Char) (a b : ℕ) :
    (pySlice l a b).length = min (b - a) (l.length - a) := by
  simp [pySlice]

lemma pySlice_full_length {l : List Char} {a b : ℕ} (hb : b ≤ l.length)
    (hab : a ≤ b) : (pySlice l a b).length = b - a := by
  rw [pySlice_length]
  omega

lemma mem_pySlice {c : Char} {l : List Char} {a b : ℕ}
    (h : c ∈ pySlice l a b) : c ∈ l :=
  List.mem_of_mem_drop (List.mem_of_mem_take h)

lemma pySlice_digits {l : List Char} {a b : ℕ}
    (h : ∀ c ∈ l, isHexDigitC c = true) :
    ∀ c ∈ pySlice l a b, isHexDigitC c = true :=
  fun c hc => h c (mem_pySlice hc)

lemma pySlice_bits {l : List Char} {a b : ℕ}
    (h : ∀ c ∈ l, isBitC c = true) :
    ∀ c ∈ pySlice l a b, isBitC c = true :=
  fun c hc => h c (mem_pySlice hc)

lemma pySlice_ne_nil {l : List Char} {a b : ℕ} (hb : b ≤ l.length)
    (hab : a < b) : pySlice l a b ≠ [] := by
  intro hc
  have := pySlice_full_length hb (le_of_lt hab)
  rw [hc] at this
  simp at this
  omega

lemma hex_str_to_int_slice {l : List Char} {a b : ℕ}
    (h : ∀ c ∈ l, isHexDigitC c = true) (hb : b ≤ l.length) (hab : a < b) :
    hex_str_to_int (pySlice l a b) = .ok (hexVal (pySlice l a b)) :=
  hex_str_to_int_ok (pySlice_ne_nil hb hab) (pySlice_digits h)

lemma bin_str_to_int_slice {l : List Char} {a b : ℕ}
    (h : ∀ c ∈ l, isBitC c = true) (hb : b ≤ l.length) (hab : a < b) :
    bin_str_to_int (pySlice l a b) = .ok (bitsVal (pySlice l a b)) :=
  bin_str_to_int_ok (pySlice_ne_nil hb hab) (pySlice_bits h)

lemma signed_hex_slice {l : List Char} {a b : ℕ}
    (h : ∀ c ∈ l, isHexDigitC c = true) (hb : b ≤ l.length) (hab : a < b) :
    signed_hex_str_to_int (pySlice l a b) = .ok (specSignedHex (pySlice l a b)) :=
  signed_hex_str_to_int_ok (pySlice_ne_nil hb hab) (pySlice_digits h)

lemma pyIndex_ok {l : List Char} {i : ℕ} (h : i < l.length) :
    pyIndex l i = .ok (l.get ⟨i, h⟩) := by
  unfold pyIndex
  rw [List.get?_eq_get h]

/-! ## Fixed-width decoder evaluation lemmas -/

lemma pySlice_ne_nil_clamped {l : List Char} {a b : ℕ} (ha : a < l.length)
    (hab : a < b) : pySlice l a b ≠ [] := by
  intro hc
  have := pySlice_length l a b
  rw [hc] at this
  simp at this
  omega

lemma hex_str_to_int_clamped {l : List Char} {a b : ℕ}
    (h : ∀ c ∈ l, isHexDigitC c = true) (ha : a < l.length) (hab : a < b) :
    hex_str_to_int (pySlice l a b) = .ok (hexVal (pySlice l a b)) :=
  hex_str_to_int_ok (pySlice_ne_nil_clamped ha hab) (pySlice_digits h)

lemma AltitudeData.convert_raw_alt_ok {l : List Char} {a b : ℕ}
    (h : ∀ c ∈ l, isHexDigitC c = true) (hb : b ≤ l.length) (hw : b - a = 8) :
    AltitudeData.convert_raw (pySlice l a b) = .ok (hexVal (pySlice l a b)) := by
  unfold AltitudeData.convert_raw
  rw [pySlice_full_length hb (by omega), hw, if_neg (by omega)]
  exact hex_str_to_int_slice h hb (by omega)

lemma AltitudeData.convert_raw_alt_short {l : List Char} {a b : ℕ}
    (hb : l.length < b) (hle : a + 8 = b) :
    AltitudeData.convert_raw (pySlice l a b) = .error .lengthMismatch := by
  unfold AltitudeData.convert_raw
  rw [if_pos]
  rw [pySlice_length]
  omega

lemma AltitudeData.create_from_raw_alt_ok {raw : List Char}
    (h : ∀ c ∈ raw, isHexDigitC c = true) (hlen : 32 ≤ raw.length) :
    AltitudeData.create_from_raw raw
      = .ok ⟨hexVal (pySlice raw 0 8), (hexVal (pySlice raw 8 16) : ℚ) / 1000,
          (hexVal (pySlice raw 16 24) : ℚ) / 1000,
          (hexVal (pySlice raw 24 32) : ℚ) / 1000⟩ := by
  unfold AltitudeData.create_from_raw
  rw [AltitudeData.convert_raw_alt_ok h (by omega) (by omega),
    AltitudeData.convert_raw_alt_ok h (by omega) (by omega),
    AltitudeData.convert_raw_alt_ok h (by omega) (by omega),
    AltitudeData.convert_raw_alt_ok h (by omega) (by omega)]
  simp only [exceptOkBind]

lemma AccelerationData.convert_raw_acc_ok {l : List Char} {a b w : ℕ}
    (h : ∀ c ∈ l, isHexDigitC c = true) (hb : b ≤ l.length) (hw : b - a = w)
    (hpos : 0 < w) :
    AccelerationData.convert_raw (pySlice l a b) w = .ok (hexVal (pySlice l a b)) := by
  unfold AccelerationData.convert_raw
  rw [pySlice_full_length hb (by omega), hw, if_neg (by omega)]
  exact hex_str_to_int_slice h hb (by omega)

lemma AccelerationData.create_from_raw_acc_ok {raw : List Char} (resolution : ℤ)
    (h : ∀ c ∈ raw, isHexDigitC c = true) (hlen : 24 ≤ raw.length) :
    AccelerationData.create_from_raw raw resolution
      = .ok ⟨resolution, hexVal (pySlice raw 0 8),
          fsrAdjust (hexVal (pySlice raw 8 12)) (16 - resolution + 1),
          (hexVal (pySlice raw 12 16) : ℚ)
            * fsrAdjust (hexVal (pySlice raw 8 12)) (16 - resolution + 1) / 2 ^ 15,
          (hexVal (pySlice raw 16 20) : ℚ)
            * fsrAdjust (hexVal (pySlice raw 8 12)) (16 - resolution + 1) / 2 ^ 15,
          (hexVal (pySlice raw 20 24) : ℚ)
            * fsrAdjust (hexVal (pySlice raw 8 12)) (16 - resolution + 1) / 2 ^ 15⟩ := by
  unfold AccelerationData.create_from_raw
  rw [AccelerationData.convert_raw_acc_ok h (by omega) (by omega) (by omega),
    AccelerationData.convert_raw_acc_ok h (by omega) (by omega) (by omega),
    AccelerationData.convert_raw_acc_ok h (by omega) (by omega) (by omega),
    AccelerationData.convert_raw_acc_ok h (by omega) (by omega) (by omega),
    AccelerationData.convert_raw_acc_ok h (by omega) (by omega) (by omega)]
  simp only [exceptOkBind]

lemma AngularVelocityData.init_ok {raw : List Char} (resolution : ℤ)
    (h : ∀ c ∈ raw, isHexDigitC c = true) (hlen : 21 ≤ raw.length) :
    AngularVelocityData.init raw resolution
      = .ok ⟨hexVal (pySlice raw 0 8),
          fsrAdjust (hexVal (pySlice raw 8 12)) (16 - (resolution + 1)),
          (hexVal (pySlice raw 12 16) : ℚ)
            * (fsrAdjust (hexVal (pySlice raw 8 12)) (16 - (resolution + 1)) / 2 ^ 15),
          (hexVal (pySlice raw 16 20) : ℚ)
            * (fsrAdjust (hexVal (pySlice raw 8 12)) (16 - (resolution + 1)) / 2 ^ 15),
          (hexVal (pySlice raw 20 24) : ℚ)
            * (fsrAdjust (hexVal (pySlice raw 8 12)) (16 - (resolution + 1)) / 2 ^ 15)⟩ := by
  unfold AngularVelocityData.init
  rw [hex_str_to_int_clamped h (by omega) (by omega),
    hex_str_to_int_clamped h (by omega) (by omega),
    hex_str_to_int_clamped h (by omega) (by omega),
    hex_str_to_int_clamped h (by omega) (by omega),
    hex_str_to_int_clamped h (by omega) (by omega)]
  simp only [exceptOkBind]

/-! ## Further conversion lemmas -/

lemma hex_bin_dic_miss {c : Char} (h : isHexDigitC c = false) :
    hex_bin_dic c = .error .keyError := by
  unfold hex_bin_dic
  cases hb : hexBinPairs.find? (fun q => q.1 == c) with
  | none => rfl
  | some q =>
    exfalso
    have hmem := List.mem_of_find?_eq_some hb
    have hpred := List.find?_some hb
    have hq : q.1 = c := eq_of_beq hpred
    have hall : ∀ r ∈ hexBinPairs,
        ((hexDigitPairs.find? (fun x => x.1 == r.1)).isSome = true) := by decide
    have := hall q hmem
    rw [hq] at this
    unfold isHexDigitC hexDigitVal at h
    cases hf : hexDigitPairs.find? (fun r => r.1 == c) with
    | none => rw [hf] at this; cases this
    | some r => rw [hf] at h; simp [Except.toOption] at h

lemma hexBinConcat_bad {l1 l2 : List Char} {c : Char}
    (h1 : ∀ a ∈ l1, isHexDigitC a = true) (hc : isHexDigitC c = false) :
    hexBinConcat (l1 ++ c :: l2) = .error .keyError := by
  induction l1 with
  | nil =>
    simp only [List.nil_append, hexBinConcat, hex_bin_dic_miss hc, exceptErrorBind]
  | cons a t ih =>
    have ha := (hexCharBits_spec (h1 a (List.mem_cons_self _ _))).1
    simp only [List.cons_append, hexBinConcat, ha, exceptOkBind, List.append_eq,
      ih (fun x hx => h1 x (List.mem_cons_of_mem _ hx)), exceptErrorBind]

lemma hex_prefixed_ok {s : List Char} (hne : s ≠ [])
    (h : ∀ c ∈ s, isHexDigitC c = true) :
    hex_str_to_int ('0' :: 'x' :: s) = .ok (hexVal s) := by
  unfold hex_str_to_int
  have hbody : pyIntBody 'x' 'X' ('0' :: 'x' :: s) = s := by
    show (if ('0' : Char) = '0' ∧ (('x' : Char) = 'x' ∨ ('x' : Char) = 'X') then s
      else '0' :: 'x' :: s) = s
    rw [if_pos ⟨rfl, Or.inl rfl⟩]
  rw [hbody]
  cases s with
  | nil => exact absurd rfl hne
  | cons c t =>
    exact digitsValAux_ok 16 (c :: t) 0 (fun x hx => hexDigitVal_eq_ok (h x hx))

lemma hex_to_bin_prefixed (s : List Char) :
    hex_to_bin ('0' :: 'x' :: s) = hexBinConcat s := by
  unfold hex_to_bin
  have hbody : hexToBinBody ('0' :: 'x' :: s) = s := by
    show (if ('0' : Char) = '0' ∧ ('x' : Char) = 'x' then s
      else '0' :: 'x' :: s) = s
    rw [if_pos ⟨rfl, rfl⟩]
  rw [hbody]

/-! ## Claim C1 -/

/-- Claim C1: the claim states that for every bitstring the signed decoder
returns two's complement over the exact width of its input, so on the 8-bit
string `00001111` (MSB `0`) it would have to return `unsigned(0001111) = 15`.
The code instead re-encodes the value through Python `hex`, losing the
leading zeros, and returns `-1`: the claim is right about the intended
behaviour and the code is wrong (`code_bug`). -/
theorem claim_C1_signed_exact_width :
    signed_bin_str_to_int ['0','0','0','0','1','1','1','1'] = .ok (-1)
    ∧ (['0','0','0','0','1','1','1','1'] : List Char).head? = some '0'
    ∧ bin_str_to_int (['0','0','0','0','1','1','1','1'] : List Char).tail = .ok 15
    ∧ signed_hex_str_to_int ['0','F'] = .ok 15 := by
  refine ⟨by decide, rfl, by decide, by decide⟩

/-! ## Claim C5 -/

/-- Claim C5 counterexample: on the quoted 32-nibble fixture the decoded
temperature is `0x000003E8 / 1000 = 1`, not the claimed `10`. -/
theorem claim_C5_counterexample :
    (AltitudeData.create_from_raw
        "000003E800002710000003E800000BB8".toList).map
      (fun r => r.temperature) = .ok 1
    ∧ (1 : ℚ) ≠ 10 := by
  constructor
  · rw [AltitudeData.create_from_raw_alt_ok (by decide) (by decide)]
    have hv : hexVal (pySlice "000003E800002710000003E800000BB8".toList 16 24)
        = 1000 := by decide
    simp only [Except.map, hv]
    norm_num
  · norm_num

/-- Claim C5 as amended: the fixture decodes to time 1000, pressure 10,
temperature 1 (raw `0x3E8 = 1000` divided by 1000) and altitude 3; in
general a 32-nibble hex payload decodes with time the raw unsigned 32-bit
value and the other three fields the raw unsigned value divided by 1000. -/
theorem claim_C5_amended :
    AltitudeData.create_from_raw "000003E800002710000003E800000BB8".toList
      = .ok ⟨1000, 10, 1, 3⟩
    ∧ ∀ raw : List Char, (∀ c ∈ raw, isHexDigitC c = true) → raw.length = 32 →
        AltitudeData.create_from_raw raw
          = .ok ⟨hexVal (pySlice raw 0 8), (hexVal (pySlice raw 8 16) : ℚ) / 1000,
              (hexVal (pySlice raw 16 24) : ℚ) / 1000,
              (hexVal (pySlice raw 24 32) : ℚ) / 1000⟩ := by
  constructor
  · rw [AltitudeData.create_from_raw_alt_ok (by decide) (by decide)]
    have h1 : hexVal (pySlice "000003E800002710000003E800000BB8".toList 0 8)
        = 1000 := by decide
    have h2 : hexVal (pySlice "000003E800002710000003E800000BB8".toList 8 16)
        = 10000 := by decide
    have h3 : hexVal (pySlice "000003E800002710000003E800000BB8".toList 16 24)
        = 1000 := by decide
    have h4 : hexVal (pySlice "000003E800002710000003E800000BB8".toList 24 32)
        = 3000 := by decide
    rw [h1, h2, h3, h4]
    norm_num
  · exact fun raw h hlen => AltitudeData.create_from_raw_alt_ok h (by omega)

/-- Claim C5 witness: the general statement applied to the fixture. -/
theorem claim_C5_witness :
    AltitudeData.create_from_raw "000003E800002710000003E800000BB8".toList
      = .ok ⟨hexVal (pySlice "000003E800002710000003E800000BB8".toList 0 8),
          (hexVal (pySlice "000003E800002710000003E800000BB8".toList 8 16) : ℚ) / 1000,
          (hexVal (pySlice "000003E800002710000003E800000BB8".toList 16 24) : ℚ) / 1000,
          (hexVal (pySlice "000003E800002710000003E800000BB8".toList 24 32) : ℚ) / 1000⟩ :=
  claim_C5_amended.2 "000003E800002710000003E800000BB8".toList (by decide) (by decide)

/-! ## Claim C6 -/

/-- Claim C6 counterexample: the claim says an uppercase `0X` prefix is
stripped, but `hex_to_bin` compares only against lowercase `'0x'`, so
`"0X1F"` fails with a `KeyError` on `'X'` while the digits `"1F"` alone
expand fine. -/
theorem claim_C6_counterexample :
    hex_to_bin "0X1F".toList = .error .keyError
    ∧ hex_to_bin "1F".toList = .ok ['0','0','0','1','1','1','1','1'] := by
  exact ⟨by decide, by decide⟩

/-- Claim C6 as amended: `hex_to_bin` maps each hex digit (case insensitive)
to its 4-bit expansion in input order, stripping only a leading *lowercase*
`0x`; any non-hex character fails the conversion (a dict `KeyError`); and
the round trip `unsigned_from_bits (hex_to_bits h) = unsigned_from_hex h`
holds both for plain digit strings and for `0x`-prefixed ones. -/
theorem claim_C6_amended :
    (∀ s : List Char, (∀ c ∈ s, isHexDigitC c = true) → s ≠ [] →
      hex_to_bin ('0' :: 'x' :: s) = hex_to_bin s
      ∧ hex_to_bin s = .ok (hexBitsPure s)
      ∧ (hexBitsPure s).length = 4 * s.length
      ∧ bin_str_to_int (hexBitsPure s) = .ok (hexVal s)
      ∧ hex_str_to_int s = .ok (hexVal s)
      ∧ hex_str_to_int ('0' :: 'x' :: s) = .ok (hexVal s))
    ∧ ∀ (l1 l2 : List Char) (c : Char), (∀ a ∈ l1, isHexDigitC a = true) →
        isHexDigitC c = false →
        hexBinConcat (l1 ++ c :: l2) = .error .keyError := by
  constructor
  · intro s hdig hne
    have hbits := hexBitsPure_bits hdig
    have hlen := hexBitsPure_length hdig
    have hLpos : 0 < s.length := List.length_pos.mpr hne
    have hne4 : hexBitsPure s ≠ [] := by
      intro hc
      rw [hc] at hlen
      simp only [List.length_nil] at hlen
      omega
    refine ⟨?_, hex_to_bin_ok hdig, hlen, ?_, hex_str_to_int_ok hne hdig,
      hex_prefixed_ok hne hdig⟩
    · rw [hex_to_bin_prefixed]
      unfold hex_to_bin
      rw [hexToBinBody_eq_self (not_prefixed_of_digits hdig (by decide))]
    · rw [bin_str_to_int_ok hne4 hbits, bitsVal_hexBitsPure hdig]
  · intro l1 l2 c h1 hc
    exact hexBinConcat_bad h1 hc

/-- Claim C6 witness: the amended statement applied to the digit string
`"aB"` and to the non-digit `'X'` embedded between digits. -/
theorem claim_C6_witness :
    (hex_to_bin ('0' :: 'x' :: ['a','B']) = hex_to_bin ['a','B']
      ∧ hex_to_bin ['a','B'] = .ok (hexBitsPure ['a','B'])
      ∧ (hexBitsPure ['a','B']).length = 4 * (['a','B'] : List Char).length
      ∧ bin_str_to_int (hexBitsPure ['a','B']) = .ok (hexVal ['a','B'])
      ∧ hex_str_to_int ['a','B'] = .ok (hexVal ['a','B'])
      ∧ hex_str_to_int ('0' :: 'x' :: ['a','B']) = .ok (hexVal ['a','B']))
    ∧ hexBinConcat (['0'] ++ 'X' :: ['1']) = .error .keyError :=
  ⟨claim_C6_amended.1 ['a','B'] (by decide) (by decide),
   claim_C6_amended.2 ['0'] ['1'] 'X' (by decide) (by decide)⟩

/-! ## Length-mismatch cascades -/

lemma AccelerationData.convert_raw_acc_short {l : List Char} {a b w : ℕ}
    (hb : l.length < b) (hle : a + w = b) (hw : 0 < w) :
    AccelerationData.convert_raw (pySlice l a b) w = .error .lengthMismatch := by
  unfold AccelerationData.convert_raw
  rw [pySlice_length, if_pos (by omega)]

lemma AltitudeData.create_from_raw_alt_short {raw : List Char}
    (h : ∀ c ∈ raw, isHexDigitC c = true) (hlen : raw.length < 32) :
    AltitudeData.create_from_raw raw = .error .lengthMismatch := by
  unfold AltitudeData.create_from_raw
  by_cases h8 : raw.length < 8
  · rw [AltitudeData.convert_raw_alt_short h8 rfl]
    rfl
  · rw [AltitudeData.convert_raw_alt_ok h (by omega) rfl]
    simp only [exceptOkBind]
    by_cases h16 : raw.length < 16
    · rw [AltitudeData.convert_raw_alt_short h16 rfl]
      rfl
    · rw [AltitudeData.convert_raw_alt_ok h (by omega) rfl]
      simp only [exceptOkBind]
      by_cases h24 : raw.length < 24
      · rw [AltitudeData.convert_raw_alt_short h24 rfl]
        rfl
      · rw [AltitudeData.convert_raw_alt_ok h (by omega) rfl]
        simp only [exceptOkBind]
        rw [AltitudeData.convert_raw_alt_short hlen rfl]
        rfl

lemma AccelerationData.create_from_raw_acc_short {raw : List Char} (resolution : ℤ)
    (h : ∀ c ∈ raw, isHexDigitC c = true) (hlen : raw.length < 24) :
    AccelerationData.create_from_raw raw resolution = .error .lengthMismatch := by
  unfold AccelerationData.create_from_raw
  by_cases h8 : raw.length < 8
  · rw [AccelerationData.convert_raw_acc_short h8 rfl (by omega)]
    rfl
  · rw [AccelerationData.convert_raw_acc_ok h (by omega) rfl (by omega)]
    simp only [exceptOkBind]
    by_cases h12 : raw.length < 12
    · rw [AccelerationData.convert_raw_acc_short h12 rfl (by omega)]
      rfl
    · rw [AccelerationData.convert_raw_acc_ok h (by omega) rfl (by omega)]
      simp only [exceptOkBind]
      by_cases h16 : raw.length < 16
      · rw [AccelerationData.convert_raw_acc_short h16 rfl (by omega)]
        rfl
      · rw [AccelerationData.convert_raw_acc_ok h (by omega) rfl (by omega)]
        simp only [exceptOkBind]
        by_cases h20 : raw.length < 20
        · rw [AccelerationData.convert_raw_acc_short h20 rfl (by omega)]
          rfl
        · rw [AccelerationData.convert_raw_acc_ok h (by omega) rfl (by omega)]
          simp only [exceptOkBind]
          rw [AccelerationData.convert_raw_acc_short hlen rfl (by omega)]
          rfl

lemma pySlice_eq_nil_of_le {l : List Char} {a b : ℕ} (hb : l.length ≤ a) :
    pySlice l a b = [] := by
  unfold pySlice
  rw [List.drop_eq_nil_of_le hb]
  exact List.take_nil

lemma AngularVelocityData.init_err {raw : List Char} (resolution : ℤ)
    (h : ∀ c ∈ raw, isHexDigitC c = true) (hlen : raw.length ≤ 20) :
    AngularVelocityData.init raw resolution = .error .invalidDigit := by
  unfold AngularVelocityData.init
  by_cases h0 : raw.length = 0
  · rw [pySlice_eq_nil_of_le (by omega)]
    rfl
  · rw [hex_str_to_int_clamped h (by omega) (by omega)]
    simp only [exceptOkBind]
    by_cases h8 : raw.length ≤ 8
    · rw [pySlice_eq_nil_of_le (by omega)]
      rfl
    · rw [hex_str_to_int_clamped h (by omega) (by omega)]
      simp only [exceptOkBind]
      by_cases h12 : raw.length ≤ 12
      · rw [pySlice_eq_nil_of_le (by omega)]
        rfl
      · rw [hex_str_to_int_clamped h (by omega) (by omega)]
        simp only [exceptOkBind]
        by_cases h16 : raw.length ≤ 16
        · rw [pySlice_eq_nil_of_le (by omega)]
          rfl
        · rw [hex_str_to_int_clamped h (by omega) (by omega)]
          simp only [exceptOkBind]
          rw [pySlice_eq_nil_of_le (by omega)]
          rfl

lemma pySlice_take {l : List Char} {a b m : ℕ} (hb : b ≤ m) :
    pySlice (l.take m) a b = pySlice l a b := by
  unfold pySlice
  rw [List.drop_take]
  rw [List.take_take]
  congr 1
  omega

/-! ## Claim C4 -/

/-- Claim C4 counterexample: the claim says any raw string whose length
differs from the declared nibble length fails, but a 33-nibble string
decodes through `AltitudeData` (the four 8-nibble slices ignore the extra
character), and `AngularVelocityData` decodes a 22-nibble string (its final
slice is silently truncated: there is no length check at all). -/
theorem claim_C4_counterexample :
    ("000003E800002710000003E800000BB80".toList.length = 33)
    ∧ (∃ rec, AltitudeData.create_from_raw
        "000003E800002710000003E800000BB80".toList = .ok rec)
    ∧ ((List.replicate 22 '0' : List Char).length = 22)
    ∧ (∃ rec, AngularVelocityData.init (List.replicate 22 '0') 16 = .ok rec) := by
  refine ⟨by decide, ⟨_, AltitudeData.create_from_raw_alt_ok (by decide) (by decide)⟩,
    by decide, ⟨_, AngularVelocityData.init_ok 16 (by decide) (by decide)⟩⟩

/-- Claim C4 as amended: `AltitudeData` and `AccelerationData` fail with the
length `ValueError` exactly on strings *shorter* than their declared nibble
lengths (32 resp. 24) and decode successfully on longer strings, reading
only the declared slices; `AngularVelocityData` has no length check at all:
it fails (with an invalid-literal error from `int('')`, not a length error)
exactly when a field slice is empty, i.e. for lengths up to 20, and any
length from 21 on decodes, truncating the final field if needed. -/
theorem claim_C4_amended :
    ∀ (raw : List Char) (resolution : ℤ), (∀ c ∈ raw, isHexDigitC c = true) →
      ((raw.length < 32 →
          AltitudeData.create_from_raw raw = .error .lengthMismatch)
        ∧ (32 ≤ raw.length →
          AltitudeData.create_from_raw raw
              = AltitudeData.create_from_raw (raw.take 32)
            ∧ ∃ rec, AltitudeData.create_from_raw raw = .ok rec)
        ∧ (raw.length < 24 →
          AccelerationData.create_from_raw raw resolution = .error .lengthMismatch)
        ∧ (24 ≤ raw.length →
          AccelerationData.create_from_raw raw resolution
              = AccelerationData.create_from_raw (raw.take 24) resolution
            ∧ ∃ rec, AccelerationData.create_from_raw raw resolution = .ok rec)
        ∧ (raw.length ≤ 20 →
          AngularVelocityData.init raw resolution = .error .invalidDigit)
        ∧ (21 ≤ raw.length →
          ∃ rec, AngularVelocityData.init raw resolution = .ok rec)) := by
  intro raw resolution h
  have htake : ∀ m, ∀ c ∈ raw.take m, isHexDigitC c = true :=
    fun m c hc => h c (List.mem_of_mem_take hc)
  refine ⟨fun hl => AltitudeData.create_from_raw_alt_short h hl,
    fun hl => ⟨?_, ⟨_, AltitudeData.create_from_raw_alt_ok h hl⟩⟩,
    fun hl => AccelerationData.create_from_raw_acc_short resolution h hl,
    fun hl => ⟨?_, ⟨_, AccelerationData.create_from_raw_acc_ok resolution h hl⟩⟩,
    fun hl => AngularVelocityData.init_err resolution h hl,
    fun hl => ⟨_, AngularVelocityData.init_ok resolution h hl⟩⟩
  · rw [AltitudeData.create_from_raw_alt_ok h hl,
      AltitudeData.create_from_raw_alt_ok (htake 32)
        (by rw [List.length_take]; omega),
      pySlice_take (by omega), pySlice_take (by omega), pySlice_take (by omega),
      pySlice_take (by omega)]
  · rw [AccelerationData.create_from_raw_acc_ok resolution h hl,
      AccelerationData.create_from_raw_acc_ok resolution (htake 24)
        (by rw [List.length_take]; omega),
      pySlice_take (by omega), pySlice_take (by omega), pySlice_take (by omega),
      pySlice_take (by omega), pySlice_take (by omega)]

/-- Claim C4 witness: the amended statement applied to an all-digit string
of length 22 (shorter than Altitude/Acceleration lengths, long enough for
AngularVelocity to decode). -/
theorem claim_C4_witness :
    ((List.replicate 22 '0' : List Char).length < 32 →
        AltitudeData.create_from_raw (List.replicate 22 '0')
          = .error .lengthMismatch)
      ∧ (32 ≤ (List.replicate 22 '0' : List Char).length →
        AltitudeData.create_from_raw (List.replicate 22 '0')
            = AltitudeData.create_from_raw ((List.replicate 22 '0' : List Char).take 32)
          ∧ ∃ rec, AltitudeData.create_from_raw (List.replicate 22 '0') = .ok rec)
      ∧ ((List.replicate 22 '0' : List Char).length < 24 →
        AccelerationData.create_from_raw (List.replicate 22 '0') 16
          = .error .lengthMismatch)
      ∧ (24 ≤ (List.replicate 22 '0' : List Char).length →
        AccelerationData.create_from_raw (List.replicate 22 '0') 16
            = AccelerationData.create_from_raw
              ((List.replicate 22 '0' : List Char).take 24) 16
          ∧ ∃ rec, AccelerationData.create_from_raw (List.replicate 22 '0') 16
              = .ok rec)
      ∧ ((List.replicate 22 '0' : List Char).length ≤ 20 →
        AngularVelocityData.init (List.replicate 22 '0') 16
          = .error .invalidDigit)
      ∧ (21 ≤ (List.replicate 22 '0' : List Char).length →
        ∃ rec, AngularVelocityData.init (List.replicate 22 '0') 16 = .ok rec) :=
  claim_C4_amended (List.replicate 22 '0') 16 (by decide)

/-! ## Claim C7 -/

/-- Claim C7: for 24-nibble payloads, both `AccelerationData` and
`AngularVelocityData` adjust the full-scale range before any axis field,
with `fsr = raw_u16 >> (16 - resolution + 1)` (Acceleration) and
`fsr = raw_u16 >> (16 - (resolution + 1))` (AngularVelocity), the shift
realized as floor division by the power of two, and every axis field equals
the raw unsigned 16-bit value times `fsr / 2^15`. -/
theorem claim_C7_fsr_adjustment :
    ∀ (raw : List Char) (resolution : ℤ),
      (∀ c ∈ raw, isHexDigitC c = true) → 24 ≤ raw.length →
      (∃ rec, AccelerationData.create_from_raw raw resolution = .ok rec
        ∧ rec.fsr = ((⌊(hexVal (pySlice raw 8 12) : ℚ)
            / (2 : ℚ) ^ ((16 : ℤ) - resolution + 1)⌋ : ℤ) : ℚ)
        ∧ rec.x_axis = (hexVal (pySlice raw 12 16) : ℚ) * rec.fsr / 2 ^ 15
        ∧ rec.y_axis = (hexVal (pySlice raw 16 20) : ℚ) * rec.fsr / 2 ^ 15
        ∧ rec.z_axis = (hexVal (pySlice raw 20 24) : ℚ) * rec.fsr / 2 ^ 15)
      ∧ (∃ rec, AngularVelocityData.init raw resolution = .ok rec
        ∧ rec.fsr = ((⌊(hexVal (pySlice raw 8 12) : ℚ)
            / (2 : ℚ) ^ ((16 : ℤ) - (resolution + 1))⌋ : ℤ) : ℚ)
        ∧ rec.x_velocity = (hexVal (pySlice raw 12 16) : ℚ) * (rec.fsr / 2 ^ 15)
        ∧ rec.y_velocity = (hexVal (pySlice raw 16 20) : ℚ) * (rec.fsr / 2 ^ 15)
        ∧ rec.z_velocity = (hexVal (pySlice raw 20 24) : ℚ) * (rec.fsr / 2 ^ 15)) := by
  intro raw resolution h hlen
  constructor
  · exact ⟨_, AccelerationData.create_from_raw_acc_ok resolution h hlen,
      rfl, rfl, rfl, rfl⟩
  · exact ⟨_, AngularVelocityData.init_ok resolution h (by omega),
      rfl, rfl, rfl, rfl⟩

/-- Claim C7 witness: the statement applied to a concrete 24-nibble payload
at resolution 16. -/
theorem claim_C7_witness :
    (∃ rec, AccelerationData.create_from_raw
        "000000640080010002000300".toList 16 = .ok rec
      ∧ rec.fsr = ((⌊(hexVal (pySlice "000000640080010002000300".toList 8 12) : ℚ)
          / (2 : ℚ) ^ ((16 : ℤ) - 16 + 1)⌋ : ℤ) : ℚ)
      ∧ rec.x_axis = (hexVal (pySlice "000000640080010002000300".toList 12 16) : ℚ)
          * rec.fsr / 2 ^ 15
      ∧ rec.y_axis = (hexVal (pySlice "000000640080010002000300".toList 16 20) : ℚ)
          * rec.fsr / 2 ^ 15
      ∧ rec.z_axis = (hexVal (pySlice "000000640080010002000300".toList 20 24) : ℚ)
          * rec.fsr / 2 ^ 15)
    ∧ (∃ rec, AngularVelocityData.init
        "000000640080010002000300".toList 16 = .ok rec
      ∧ rec.fsr = ((⌊(hexVal (pySlice "000000640080010002000300".toList 8 12) : ℚ)
          / (2 : ℚ) ^ ((16 : ℤ) - (16 + 1))⌋ : ℤ) : ℚ)
      ∧ rec.x_velocity
          = (hexVal (pySlice "000000640080010002000300".toList 12 16) : ℚ)
            * (rec.fsr / 2 ^ 15)
      ∧ rec.y_velocity
          = (hexVal (pySlice "000000640080010002000300".toList 16 20) : ℚ)
            * (rec.fsr / 2 ^ 15)
      ∧ rec.z_velocity
          = (hexVal (pySlice "000000640080010002000300".toList 20 24) : ℚ)
            * (rec.fsr / 2 ^ 15)) :=
  claim_C7_fsr_adjustment "000000640080010002000300".toList 16 (by decide) (by decide)

/-! ## Claim C8 -/

/-- Claim C8: GNSSLocationData reads its nibble-aligned fields unsigned or
signed two's-complement (over the exact slice width) as listed, and derives
the fix type from bits [2:4) of the bit expansion of the hex substring from
nibble 62 to the end, mapped 0 to unknown, 1 to not available, 2 to 2D fix,
3 to 3D fix, anything else to error. -/
theorem claim_C8_gnss_location :
    ∀ raw : List Char, (∀ c ∈ raw, isHexDigitC c = true) → 63 ≤ raw.length →
      GNSSLocationData.setup raw
        = .ok ⟨hexVal (pySlice raw 0 8),
            specSignedHex (pySlice raw 8 16),
            specSignedHex (pySlice raw 16 24),
            hexVal (pySlice raw 24 32),
            hexVal (pySlice raw 32 40),
            specSignedHex (pySlice raw 40 44),
            specSignedHex (pySlice raw 44 48),
            hexVal (pySlice raw 48 52),
            hexVal (pySlice raw 52 56),
            hexVal (pySlice raw 56 60),
            hexVal (pySlice raw 60 62),
            (let ft := bitsVal (pySlice (hexBitsPure (raw.drop 62)) 2 4)
             if ft = 0 then "unknown" else if ft = 1 then "not available"
             else if ft = 2 then "2D fix" else if ft = 3 then "3D fix"
             else "error")⟩ := by
  intro raw h hlen
  have hdrop : ∀ c ∈ raw.drop 62, isHexDigitC c = true :=
    fun c hc => h c (List.mem_of_mem_drop hc)
  have hdlen : (raw.drop 62).length = raw.length - 62 := List.length_drop _ _
  have hblen : (hexBitsPure (raw.drop 62)).length = 4 * (raw.length - 62) := by
    rw [hexBitsPure_length hdrop, hdlen]
  have hfix : hex_to_bin (raw.drop 62) = .ok (hexBitsPure (raw.drop 62)) :=
    hex_to_bin_ok hdrop
  have hft : bin_str_to_int (pySlice (hexBitsPure (raw.drop 62)) 2 4)
      = .ok (bitsVal (pySlice (hexBitsPure (raw.drop 62)) 2 4)) :=
    bin_str_to_int_slice (hexBitsPure_bits hdrop) (by omega) (by omega)
  unfold GNSSLocationData.setup
  rw [hex_str_to_int_clamped h (by omega) (by omega),
    signed_hex_slice h (by omega) (by omega),
    signed_hex_slice h (by omega) (by omega),
    hex_str_to_int_clamped h (by omega) (by omega),
    hex_str_to_int_clamped h (by omega) (by omega),
    signed_hex_slice h (by omega) (by omega),
    signed_hex_slice h (by omega) (by omega),
    hex_str_to_int_clamped h (by omega) (by omega),
    hex_str_to_int_clamped h (by omega) (by omega),
    hex_str_to_int_clamped h (by omega) (by omega),
    hex_str_to_int_clamped h (by omega) (by omega),
    hfix]
  simp only [exceptOkBind]
  rw [hft]
  simp only [exceptOkBind]

/-- Claim C8 witness: the statement applied to a 64-nibble payload of zeros
ending in `30` (fix-type bits `11`, a 3D fix). -/
theorem claim_C8_witness :
    GNSSLocationData.setup (List.replicate 62 '0' ++ ['3','0'])
      = .ok ⟨hexVal (pySlice (List.replicate 62 '0' ++ ['3','0']) 0 8),
          specSignedHex (pySlice (List.replicate 62 '0' ++ ['3','0']) 8 16),
          specSignedHex (pySlice (List.replicate 62 '0' ++ ['3','0']) 16 24),
          hexVal (pySlice (List.replicate 62 '0' ++ ['3','0']) 24 32),
          hexVal (pySlice (List.replicate 62 '0' ++ ['3','0']) 32 40),
          specSignedHex (pySlice (List.replicate 62 '0' ++ ['3','0']) 40 44),
          specSignedHex (pySlice (List.replicate 62 '0' ++ ['3','0']) 44 48),
          hexVal (pySlice (List.replicate 62 '0' ++ ['3','0']) 48 52),
          hexVal (pySlice (List.replicate 62 '0' ++ ['3','0']) 52 56),
          hexVal (pySlice (List.replicate 62 '0' ++ ['3','0']) 56 60),
          hexVal (pySlice (List.replicate 62 '0' ++ ['3','0']) 60 62),
          (let ft := bitsVal
              (pySlice (hexBitsPure ((List.replicate 62 '0' ++ ['3','0']).drop 62)) 2 4)
           if ft = 0 then "unknown" else if ft = 1 then "not available"
           else if ft = 2 then "2D fix" else if ft = 3 then "3D fix"
           else "error")⟩ :=
  claim_C8_gnss_location (List.replicate 62 '0' ++ ['3','0']) (by decide) (by decide)

/-! ## KX134 spec-side definitions and lemmas -/

/-- Sample-rate table of the claim: 4-bit code to Hz. -/
def specKxRate (v : ℕ) : ℚ :=
  if v = 0 then 781/1000 else if v = 1 then 1563/1000
  else if v = 2 then 3125/1000 else if v = 3 then 625/100
  else if v = 4 then 125/10 else if v = 5 then 25
  else if v = 6 then 50 else if v = 7 then 100
  else if v = 8 then 200 else if v = 9 then 400
  else if v = 10 then 800 else if v = 11 then 1600
  else if v = 12 then 3200 else if v = 13 then 6400
  else if v = 14 then 12800 else if v = 15 then 25600 else 0

/-- Per-axis sample width decoded from bit 39 of the full bitstring. -/
def specKxRes (full : List Char) : ℕ :=
  if full.get? 39 = some '0' then 8 else 16

/-- Number of trailing padding bits: the 2-bit code at bits [46:48) times 8. -/
def specKxPad (full : List Char) : ℕ := bitsVal (pySlice full 46 48) * 8

/-- Decoded triple for one chunk, per the code's behaviour: a 24-bit chunk
through the (minimal-width, see C1) signed decoder, a 48-bit chunk unsigned,
anything else all-`none`. -/
def specKxMeas (c : List Char) : KXMeasurement :=
  if c.length = 24 then
    ⟨some (specSignedBin (bitsVal (pySlice c 0 8))),
     some (specSignedBin (bitsVal (pySlice c 8 16))),
     some (specSignedBin (bitsVal (pySlice c 16 24)))⟩
  else if c.length = 48 then
    ⟨some (bitsVal (pySlice c 0 16)), some (bitsVal (pySlice c 16 32)),
     some (bitsVal (pySlice c 32 48))⟩
  else ⟨none, none, none⟩

lemma signed_bin_slice {l : List Char} {a b : ℕ}
    (h : ∀ c ∈ l, isBitC c = true) (hb : b ≤ l.length) (hab : a < b) :
    signed_bin_str_to_int (pySlice l a b)
      = .ok (specSignedBin (bitsVal (pySlice l a b))) :=
  signed_bin_str_to_int_ok (pySlice_ne_nil hb hab) (pySlice_bits h)

lemma KXMeasurement.kxm_setup_ok {w : List Char} (hb : ∀ c ∈ w, isBitC c = true) :
    KXMeasurement.setup w = .ok (specKxMeas w) := by
  unfold KXMeasurement.setup specKxMeas
  split_ifs with h24 h48
  · rw [signed_bin_slice hb (by omega) (by omega),
      signed_bin_slice hb (by omega) (by omega),
      signed_bin_slice hb (by omega) (by omega)]
    rfl
  · rw [bin_str_to_int_slice hb (by omega) (by omega),
      bin_str_to_int_slice hb (by omega) (by omega),
      bin_str_to_int_slice hb (by omega) (by omega)]
    rfl
  · rfl

lemma kx_dic_pyHex {v : ℕ} (hv : v < 16) :
    kx134_1211_dic (pyHex v) = .ok (specKxRate v) := by
  interval_cases v <;> rfl

lemma kx_dic_case_insensitive :
    kx134_1211_dic ['0','x','A'] = kx134_1211_dic ['0','x','a']
    ∧ kx134_1211_dic ['0','x','B'] = kx134_1211_dic ['0','x','b']
    ∧ kx134_1211_dic ['0','x','C'] = kx134_1211_dic ['0','x','c']
    ∧ kx134_1211_dic ['0','x','D'] = kx134_1211_dic ['0','x','d']
    ∧ kx134_1211_dic ['0','x','E'] = kx134_1211_dic ['0','x','e']
    ∧ kx134_1211_dic ['0','x','F'] = kx134_1211_dic ['0','x','f'] := by
  refine ⟨rfl, rfl, rfl, rfl, rfl, rfl⟩

lemma listMapM_ok {l : List (List Char)} {g : List Char → Except DecodeErr KXMeasurement}
    {f : List Char → KXMeasurement} (h : ∀ a ∈ l, g a = .ok (f a)) :
    l.mapM g = .ok (l.map f) := by
  induction l with
  | nil => rfl
  | cons a t ih =>
    rw [List.mapM_cons, h a (List.mem_cons_self _ _),
      ih (fun x hx => h x (List.mem_cons_of_mem _ hx))]
    rfl

lemma digitsValAux_bits_lt :
    ∀ (l : List Char) (acc v : ℕ),
      digitsValAux 2 bitDigitVal acc l = .ok v → v < (acc + 1) * 2 ^ l.length := by
  intro l
  induction l with
  | nil =>
    intro acc v h
    cases h
    simp
  | cons c t ih =>
    intro acc v h
    unfold digitsValAux at h
    cases hd : bitDigitVal c with
    | error e => rw [hd] at h; cases h
    | ok d =>
      rw [hd] at h
      simp only [exceptOkBind] at h
      have hdle : d ≤ 1 := by
        unfold bitDigitVal at hd
        split_ifs at hd <;> (cases hd; omega)
      have := ih (2 * acc + d) v h
      have hpow : (0:ℕ) < 2 ^ t.length := pow_pos (by omega) _
      calc v < (2 * acc + d + 1) * 2 ^ t.length := this
        _ ≤ (2 * acc + 2) * 2 ^ t.length := by
            apply Nat.mul_le_mul_right
            omega
        _ = (acc + 1) * 2 ^ (t.length + 1) := by
            rw [pow_succ]
            ring
        _ = (acc + 1) * 2 ^ (c :: t).length := by rw [List.length_cons]

lemma pyIntBody_length_le (mark markUpper : Char) (s : List Char) :
    (pyIntBody mark markUpper s).length ≤ s.length := by
  unfold pyIntBody
  cases s with
  | nil => simp
  | cons c0 t =>
    cases t with
    | nil => simp
    | cons c1 rest =>
      show (if c0 = '0' ∧ (c1 = mark ∨ c1 = markUpper) then rest
        else c0 :: c1 :: rest).length ≤ (c0 :: c1 :: rest).length
      split_ifs
      · simp only [List.length_cons]
        omega
      · exact le_rfl

lemma bin_str_to_int_lt {s : List Char} {v : ℕ}
    (h : bin_str_to_int s = .ok v) : v < 2 ^ s.length := by
  unfold bin_str_to_int at h
  cases hb : pyIntBody 'b' 'B' s with
  | nil => rw [hb] at h; cases h
  | cons c t =>
    rw [hb] at h
    have hlt := digitsValAux_bits_lt (c :: t) 0 v h
    have hle : (c :: t).length ≤ s.length := by
      rw [← hb]
      exact pyIntBody_length_le 'b' 'B' s
    calc v < (0 + 1) * 2 ^ (c :: t).length := hlt
      _ = 2 ^ (c :: t).length := by ring
      _ ≤ 2 ^ s.length := Nat.pow_le_pow_right (by omega) hle

lemma KX1341211Data.kx_setup_ok {raw : List Char}
    (h : ∀ c ∈ raw, isHexDigitC c = true) (hlen : 12 ≤ raw.length) :
    KX1341211Data.setup raw = .ok
      ⟨bitsVal (pySlice (hexBitsPure raw) 0 32),
       specKxRate (bitsVal (pySlice (hexBitsPure raw) 32 36)),
       (if bitsVal (pySlice (hexBitsPure raw) 36 38) = 0 then 8
        else if bitsVal (pySlice (hexBitsPure raw) 36 38) = 1 then 16
        else if bitsVal (pySlice (hexBitsPure raw) 36 38) = 2 then 32
        else if bitsVal (pySlice (hexBitsPure raw) 36 38) = 3 then 64 else -1),
       some (if (hexBitsPure raw).get? 38 = some '0'
         then specKxRate (bitsVal (pySlice (hexBitsPure raw) 32 36)) / 9
         else specKxRate (bitsVal (pySlice (hexBitsPure raw) 32 36)) / 2),
       (rangeStep (((hexBitsPure raw).drop 48).length - specKxPad (hexBitsPure raw))
           (specKxRes (hexBitsPure raw) * 3)).map
         (fun i => specKxMeas (pySlice ((hexBitsPure raw).drop 48) i
           (i + specKxRes (hexBitsPure raw) * 3)))⟩ := by
  have hfull := hex_to_bin_ok h
  have hflen : (hexBitsPure raw).length = 4 * raw.length := hexBitsPure_length h
  have hfbits := hexBitsPure_bits h
  have hdropbits : ∀ c ∈ (hexBitsPure raw).drop 48, isBitC c = true :=
    fun c hc => hfbits c (List.mem_of_mem_drop hc)
  have hdrv : bitsVal (pySlice (hexBitsPure raw) 32 36) < 16 := by
    have hb := bitsVal_lt (l := pySlice (hexBitsPure raw) 32 36)
    rw [pySlice_full_length (by omega) (by omega)] at hb
    norm_num at hb
    exact hb
  have h38 : 38 < (hexBitsPure raw).length := by omega
  have h39 : 39 < (hexBitsPure raw).length := by omega
  have hmeas : ∀ pad res,
      ((rangeStep (((hexBitsPure raw).drop 48).length - pad) (res * 3)).map
        (fun i => pySlice ((hexBitsPure raw).drop 48) i (i + res * 3))).mapM
          KXMeasurement.setup
        = .ok ((rangeStep (((hexBitsPure raw).drop 48).length - pad) (res * 3)).map
            (fun i => specKxMeas (pySlice ((hexBitsPure raw).drop 48) i
              (i + res * 3)))) := by
    intro pad res
    rw [listMapM_ok (f := specKxMeas) (fun a ha => by
      obtain ⟨i, -, rfl⟩ := List.mem_map.mp ha
      exact KXMeasurement.kxm_setup_ok (pySlice_bits hdropbits)), List.map_map]
    rfl
  unfold KX1341211Data.setup
  rw [hfull]
  simp only [exceptOkBind]
  rw [bin_str_to_int_slice hfbits (by omega) (by omega)]
  simp only [exceptOkBind]
  rw [bin_str_to_int_slice hfbits (by omega) (by omega)]
  simp only [exceptOkBind]
  rw [kx_dic_pyHex hdrv]
  simp only [exceptOkBind]
  rw [bin_str_to_int_slice hfbits (by omega) (by omega)]
  simp only [exceptOkBind]
  rw [pyIndex_ok h38]
  simp only [exceptOkBind]
  rw [pyIndex_ok h39]
  simp only [exceptOkBind]
  have hg38 : (hexBitsPure raw).get? 38 = some ((hexBitsPure raw).get ⟨38, h38⟩) :=
    List.get?_eq_get h38
  have hg39 : (hexBitsPure raw).get? 39 = some ((hexBitsPure raw).get ⟨39, h39⟩) :=
    List.get?_eq_get h39
  have hb38 : isBitC ((hexBitsPure raw).get ⟨38, h38⟩) = true :=
    hfbits _ (List.get_mem _ _ _)
  have hb39 : isBitC ((hexBitsPure raw).get ⟨39, h39⟩) = true :=
    hfbits _ (List.get_mem _ _ _)
  have hres : specKxRes (hexBitsPure raw)
      = if (hexBitsPure raw).get ⟨39, h39⟩ = '0' then 8 else 16 := by
    unfold specKxRes
    rw [hg39]
    rcases isBitC_cases hb39 with hc | hc <;> rw [hc] <;> simp
  rcases isBitC_cases hb38 with hc38 | hc38 <;>
    rcases isBitC_cases hb39 with hc39 | hc39 <;>
    rw [hc38, hc39] <;>
    rw [hc38] at hg38 <;>
    rw [hc39] at hres <;>
    rw [hg38, hres] <;>
    simp +decide only [if_pos, if_neg, reduceIte, reduceCtorEq, exceptOkBind,
      specKxPad] <;>
    rw [bin_str_to_int_slice hfbits (by omega) (by omega)] <;>
    simp only [exceptOkBind] <;>
    rw [hmeas] <;>
    simp only [exceptOkBind]

lemma hexBitsPure_take {l : List Char} (h : ∀ c ∈ l, isHexDigitC c = true) :
    ∀ k : ℕ, (hexBitsPure l).take (4 * k) = hexBitsPure (l.take k) := by
  induction l with
  | nil =>
    intro k
    simp [hexBitsPure]
  | cons c t ih =>
    intro k
    cases k with
    | zero => simp [hexBitsPure]
    | succ k =>
      have hlen4 : (hexCharBits c).length = 4 :=
        (hexCharBits_spec (h c (List.mem_cons_self _ _))).2.1
      rw [hexBitsPure_cons, List.take_append_eq_append_take, hlen4]
      have h1 : 4 * (k + 1) = 4 * k + 4 := by ring
      rw [h1]
      rw [List.take_of_length_le (by omega)]
      have h2 : 4 * k + 4 - 4 = 4 * k := by omega
      rw [h2, ih (fun x hx => h x (List.mem_cons_of_mem _ hx)) k]
      rw [List.take_succ_cons, hexBitsPure_cons]

lemma bindInv {α β : Type} {x : Except DecodeErr α} {f : α → Except DecodeErr β}
    {b : β} (h : (x >>= f) = .ok b) : ∃ a, x = .ok a ∧ f a = .ok b := by
  cases x with
  | error e =>
    rw [exceptErrorBind] at h
    cases h
  | ok a =>
    rw [exceptOkBind] at h
    exact ⟨a, rfl, h⟩

/-! ## Claim C9 -/

/-- Claim C9: the KX134 header decodes the time from nibbles [0:8), the
data rate from the 4-bit code at bits [32:36) through the sample-rate table
(whose uppercase keys carry the same values as the lowercase ones), the
full-scale range from bits [36:38) through the map 0,1,2,3 to 8,16,32,64 g
with sentinel -1 otherwise, the corner frequency as data_rate/9 when bit 38
is 0 and data_rate/2 when it is 1, the resolution as 8 or 16 from bit 39,
and discards padding = (code at bits [46:48)) * 8 trailing bits via the
chunk-start cut expressed in the measurement layout. -/
theorem claim_C9_kx_header :
    (∀ raw : List Char, (∀ c ∈ raw, isHexDigitC c = true) → 12 ≤ raw.length →
      ∃ rec, KX1341211Data.setup raw = .ok rec
        ∧ rec.time_stamp = hexVal (pySlice raw 0 8)
        ∧ rec.data_rate = specKxRate (bitsVal (pySlice (hexBitsPure raw) 32 36))
        ∧ rec.full_scale_range
            = (if bitsVal (pySlice (hexBitsPure raw) 36 38) = 0 then 8
              else if bitsVal (pySlice (hexBitsPure raw) 36 38) = 1 then 16
              else if bitsVal (pySlice (hexBitsPure raw) 36 38) = 2 then 32
              else if bitsVal (pySlice (hexBitsPure raw) 36 38) = 3 then 64 else -1)
        ∧ rec.corner_freq = some (if (hexBitsPure raw).get? 38 = some '0'
            then specKxRate (bitsVal (pySlice (hexBitsPure raw) 32 36)) / 9
            else specKxRate (bitsVal (pySlice (hexBitsPure raw) 32 36)) / 2)
        ∧ rec.measurements
            = (rangeStep (((hexBitsPure raw).drop 48).length
                  - specKxPad (hexBitsPure raw)) (specKxRes (hexBitsPure raw) * 3)).map
                (fun i => specKxMeas (pySlice ((hexBitsPure raw).drop 48) i
                  (i + specKxRes (hexBitsPure raw) * 3))))
    ∧ (kx134_1211_dic ['0','x','A'] = kx134_1211_dic ['0','x','a']
      ∧ kx134_1211_dic ['0','x','B'] = kx134_1211_dic ['0','x','b']
      ∧ kx134_1211_dic ['0','x','C'] = kx134_1211_dic ['0','x','c']
      ∧ kx134_1211_dic ['0','x','D'] = kx134_1211_dic ['0','x','d']
      ∧ kx134_1211_dic ['0','x','E'] = kx134_1211_dic ['0','x','e']
      ∧ kx134_1211_dic ['0','x','F'] = kx134_1211_dic ['0','x','f']) := by
  constructor
  · intro raw h hlen
    refine ⟨_, KX1341211Data.kx_setup_ok h hlen, ?_, rfl, rfl, rfl, rfl⟩
    show bitsVal (pySlice (hexBitsPure raw) 0 32) = hexVal (pySlice raw 0 8)
    have h1 : pySlice (hexBitsPure raw) 0 32 = (hexBitsPure raw).take (4 * 8) := by
      simp [pySlice]
    have h2 : pySlice raw 0 8 = raw.take 8 := by
      simp [pySlice]
    rw [h1, h2, hexBitsPure_take h 8,
      bitsVal_hexBitsPure (fun c hc => h c (List.mem_of_mem_take hc))]
  · exact kx_dic_case_insensitive

/-- Claim C9 witness: the header statement applied to the 12-nibble
all-zero payload. -/
theorem claim_C9_witness :
    ∃ rec, KX1341211Data.setup (List.replicate 12 '0') = .ok rec
      ∧ rec.time_stamp = hexVal (pySlice (List.replicate 12 '0') 0 8)
      ∧ rec.data_rate
          = specKxRate (bitsVal (pySlice (hexBitsPure (List.replicate 12 '0')) 32 36))
      ∧ rec.full_scale_range
          = (if bitsVal (pySlice (hexBitsPure (List.replicate 12 '0')) 36 38) = 0 then 8
            else if bitsVal (pySlice (hexBitsPure (List.replicate 12 '0')) 36 38) = 1
              then 16
            else if bitsVal (pySlice (hexBitsPure (List.replicate 12 '0')) 36 38) = 2
              then 32
            else if bitsVal (pySlice (hexBitsPure (List.replicate 12 '0')) 36 38) = 3
              then 64 else -1)
      ∧ rec.corner_freq = some (if (hexBitsPure (List.replicate 12 '0')).get? 38 = some '0'
          then specKxRate (bitsVal (pySlice (hexBitsPure (List.replicate 12 '0')) 32 36)) / 9
          else specKxRate (bitsVal (pySlice (hexBitsPure (List.replicate 12 '0')) 32 36)) / 2)
      ∧ rec.measurements
          = (rangeStep (((hexBitsPure (List.replicate 12 '0')).drop 48).length
                - specKxPad (hexBitsPure (List.replicate 12 '0')))
              (specKxRes (hexBitsPure (List.replicate 12 '0')) * 3)).map
              (fun i => specKxMeas (pySlice ((hexBitsPure (List.replicate 12 '0')).drop 48) i
                (i + specKxRes (hexBitsPure (List.replicate 12 '0')) * 3))) :=
  claim_C9_kx_header.1 (List.replicate 12 '0') (by decide) (by decide)

/-! ## Claim C10 -/

/-- Claim C10: whenever `KX134_1211Data.setup` returns a record, the decoded
full-scale range is 8, 16, 32 or 64: the 2-bit field can only be 0..3, so
the -1 sentinel branch is unreachable. -/
theorem claim_C10_fsr_sentinel_unreachable :
    ∀ (raw : List Char) (rec : KX1341211Data),
      KX1341211Data.setup raw = .ok rec →
      rec.full_scale_range ∈ ([8, 16, 32, 64] : List ℤ) := by
  intro raw rec hsetup
  unfold KX1341211Data.setup at hsetup
  obtain ⟨F, -, hsetup⟩ := bindInv hsetup
  obtain ⟨ts, -, hsetup⟩ := bindInv hsetup
  obtain ⟨drv, -, hsetup⟩ := bindInv hsetup
  obtain ⟨dr, -, hsetup⟩ := bindInv hsetup
  obtain ⟨v, hv, hsetup⟩ := bindInv hsetup
  obtain ⟨c38, -, hsetup⟩ := bindInv hsetup
  obtain ⟨c39, -, hsetup⟩ := bindInv hsetup
  have hvlt : v < 4 := by
    have hb := bin_str_to_int_lt hv
    have hsl : (pySlice F 36 38).length ≤ 2 := by
      rw [pySlice_length]
      omega
    calc v < 2 ^ (pySlice F 36 38).length := hb
      _ ≤ 2 ^ 2 := Nat.pow_le_pow_right (by omega) hsl
      _ = 4 := by norm_num
  simp only [exceptOkBind, exceptErrorBind] at hsetup
  split at hsetup
  · obtain ⟨pv, -, hsetup⟩ := bindInv hsetup
    obtain ⟨ms, -, hsetup⟩ := bindInv hsetup
    injection hsetup with hrec
    subst hrec
    interval_cases v <;> simp
  · split at hsetup
    · obtain ⟨pv, -, hsetup⟩ := bindInv hsetup
      obtain ⟨ms, -, hsetup⟩ := bindInv hsetup
      injection hsetup with hrec
      subst hrec
      interval_cases v <;> simp
    · cases hsetup

/-- Claim C10 witness: the statement applied to the all-zero 12-nibble
payload and the record it decodes to. -/
theorem claim_C10_witness :
    (⟨bitsVal (pySlice (hexBitsPure (List.replicate 12 '0')) 0 32),
      specKxRate (bitsVal (pySlice (hexBitsPure (List.replicate 12 '0')) 32 36)),
      (if bitsVal (pySlice (hexBitsPure (List.replicate 12 '0')) 36 38) = 0 then 8
       else if bitsVal (pySlice (hexBitsPure (List.replicate 12 '0')) 36 38) = 1 then 16
       else if bitsVal (pySlice (hexBitsPure (List.replicate 12 '0')) 36 38) = 2 then 32
       else if bitsVal (pySlice (hexBitsPure (List.replicate 12 '0')) 36 38) = 3 then 64
       else -1),
      some (if (hexBitsPure (List.replicate 12 '0')).get? 38 = some '0'
        then specKxRate (bitsVal (pySlice (hexBitsPure (List.replicate 12 '0')) 32 36)) / 9
        else specKxRate (bitsVal (pySlice (hexBitsPure (List.replicate 12 '0')) 32 36)) / 2),
      (rangeStep (((hexBitsPure (List.replicate 12 '0')).drop 48).length
          - specKxPad (hexBitsPure (List.replicate 12 '0')))
        (specKxRes (hexBitsPure (List.replicate 12 '0')) * 3)).map
        (fun i => specKxMeas (pySlice ((hexBitsPure (List.replicate 12 '0')).drop 48) i
          (i + specKxRes (hexBitsPure (List.replicate 12 '0')) * 3)))⟩
      : KX1341211Data).full_scale_range ∈ ([8, 16, 32, 64] : List ℤ) :=
  claim_C10_fsr_sentinel_unreachable (List.replicate 12 '0') _
    (KX1341211Data.kx_setup_ok (by decide) (by decide))

/-! ## Claim C3 -/

/-- Exact partition into chunks of `sz` bits, dropping a trailing partial
chunk, with structural fuel. -/
def chunksExactF (sz : ℕ) : ℕ → List Char → List (List Char)
  | 0, _ => []
  | fuel + 1, l => if 0 < sz ∧ sz ≤ l.length
      then l.take sz :: chunksExactF sz fuel (l.drop sz) else []

/-- Exact chunk partition (claim-side). -/
def chunksExact (sz : ℕ) (l : List Char) : List (List Char) :=
  chunksExactF sz l.length l

/-- Two's complement over the exact width of a bit window, as the claim
reads 8-bit sub-chunks. -/
def claimTwosComp (bits : List Char) : ℤ :=
  if 2 ^ (bits.length - 1) ≤ bitsVal bits
  then (bitsVal bits : ℤ) - 2 ^ bits.length else (bitsVal bits : ℤ)

/-- Decoding of one chunk exactly as claim C3 words it: three equal
sub-chunks, signed two's-complement at resolution 8, unsigned at 16. -/
def claimKxMeas (res : ℕ) (c : List Char) : KXMeasurement :=
  if res = 8 then
    ⟨some (claimTwosComp (pySlice c 0 8)), some (claimTwosComp (pySlice c 8 16)),
     some (claimTwosComp (pySlice c 16 24))⟩
  else
    ⟨some (bitsVal (pySlice c 0 16)), some (bitsVal (pySlice c 16 32)),
     some (bitsVal (pySlice c 32 48))⟩

/-- The measurement sequence exactly as claim C3 describes it: bits [48:end)
minus the trailing padding bits, partitioned into exact chunks of
`resolution*3` bits with the trailing partial chunk dropped. -/
def claimKxMeasurements (raw : List Char) : List KXMeasurement :=
  (chunksExact (specKxRes (hexBitsPure raw) * 3)
      (((hexBitsPure raw).drop 48).take
        (((hexBitsPure raw).drop 48).length - specKxPad (hexBitsPure raw)))).map
    (claimKxMeas (specKxRes (hexBitsPure raw)))

/-- Claim C3 counterexample: three payloads on which the decoder differs
from the claim's reading. On `0000000000010000FF` (8 padding bits, 16
sample bits) the single chunk crosses into the padding and decodes `z = -1`
from padding bits, where the claim yields no measurement; on a 19-nibble
zero payload the trailing 4-bit partial chunk is not dropped but appended
as an all-`None` measurement; on `0000000000000F0F0F` the 8-bit sub-chunks
`00001111` decode to `-1` instead of two's-complement `15` (the C1 defect). -/
theorem claim_C3_counterexample :
    ((KX1341211Data.setup "0000000000010000FF".toList).map
        (fun r => r.measurements)
        ≠ .ok (claimKxMeasurements "0000000000010000FF".toList)
      ∧ (KX1341211Data.setup "0000000000010000FF".toList).map
          (fun r => r.measurements) = .ok [⟨some 0, some 0, some (-1)⟩]
      ∧ claimKxMeasurements "0000000000010000FF".toList = [])
    ∧ ((KX1341211Data.setup (List.replicate 19 '0')).map
        (fun r => r.measurements)
        ≠ .ok (claimKxMeasurements (List.replicate 19 '0'))
      ∧ (KX1341211Data.setup (List.replicate 19 '0')).map
          (fun r => r.measurements)
          = .ok [⟨some 0, some 0, some 0⟩, ⟨none, none, none⟩]
      ∧ claimKxMeasurements (List.replicate 19 '0') = [⟨some 0, some 0, some 0⟩])
    ∧ ((KX1341211Data.setup "0000000000000F0F0F".toList).map
        (fun r => r.measurements)
        ≠ .ok (claimKxMeasurements "0000000000000F0F0F".toList)
      ∧ (KX1341211Data.setup "0000000000000F0F0F".toList).map
          (fun r => r.measurements) = .ok [⟨some (-1), some (-1), some (-1)⟩]
      ∧ claimKxMeasurements "0000000000000F0F0F".toList
          = [⟨some 15, some 15, some 15⟩]) := by
  exact ⟨⟨by decide, by decide, by decide⟩, ⟨by decide, by decide, by decide⟩,
    ⟨by decide, by decide, by decide⟩⟩

lemma specKxRes_pos (full : List Char) : 0 < specKxRes full := by
  unfold specKxRes
  split_ifs <;> omega

lemma rangeStep_exact {stop step : ℕ} (hstep : 0 < step)
    (hdvd : stop % step = 0) :
    rangeStep stop step = (List.range (stop / step)).map (fun i => i * step) := by
  unfold rangeStep
  congr 1
  have hq : stop = step * (stop / step) := (Nat.div_mul_cancel
    (Nat.dvd_of_mod_eq_zero hdvd)).symm.trans (mul_comm _ _)
  have h1 : stop + step - 1 = step * (stop / step) + (step - 1) := by
    conv_lhs => rw [hq]
    exact Nat.add_sub_assoc hstep _
  rw [h1, Nat.mul_add_div hstep,
    Nat.div_eq_of_lt (show step - 1 < step by omega), Nat.add_zero]

/-- Claim C3 as amended: provided the padding fits in the sample region and
the non-padding length is an exact multiple of the chunk size, every
measurement decodes from a full `resolution*3`-bit chunk drawn entirely
from the non-padding sample region (bits [48:end) minus the trailing
padding), in input order, and no padding bit contributes. (Without the
divisibility proviso the final chunk crosses into the padding or is short,
a short chunk yielding an all-`None` measurement rather than being dropped,
and 8-bit sub-chunks decode through the minimal-width signed decoder of C1
rather than exact-width two's complement — see the counterexample.) -/
theorem claim_C3_amended :
    ∀ raw : List Char, (∀ c ∈ raw, isHexDigitC c = true) → 12 ≤ raw.length →
      specKxPad (hexBitsPure raw) ≤ ((hexBitsPure raw).drop 48).length →
      (((hexBitsPure raw).drop 48).length - specKxPad (hexBitsPure raw))
          % (specKxRes (hexBitsPure raw) * 3) = 0 →
      (KX1341211Data.setup raw).map (fun r => r.measurements)
        = .ok ((List.range ((((hexBitsPure raw).drop 48).length
              - specKxPad (hexBitsPure raw)) / (specKxRes (hexBitsPure raw) * 3))).map
            (fun i => specKxMeas
              (pySlice (((hexBitsPure raw).drop 48).take
                  (((hexBitsPure raw).drop 48).length - specKxPad (hexBitsPure raw)))
                (i * (specKxRes (hexBitsPure raw) * 3))
                (i * (specKxRes (hexBitsPure raw) * 3)
                  + specKxRes (hexBitsPure raw) * 3)))) := by
  intro raw h hlen hple hdvd
  have hckpos : 0 < specKxRes (hexBitsPure raw) * 3 := by
    have := specKxRes_pos (hexBitsPure raw)
    omega
  rw [KX1341211Data.kx_setup_ok h hlen]
  simp only [Except.map]
  congr 1
  rw [rangeStep_exact hckpos hdvd, List.map_map]
  apply List.map_congr_left
  intro i hi
  have hiq : i < (((hexBitsPure raw).drop 48).length - specKxPad (hexBitsPure raw))
      / (specKxRes (hexBitsPure raw) * 3) := List.mem_range.mp hi
  have hle : i * (specKxRes (hexBitsPure raw) * 3) + specKxRes (hexBitsPure raw) * 3
      ≤ ((hexBitsPure raw).drop 48).length - specKxPad (hexBitsPure raw) := by
    have h2 : (i + 1) * (specKxRes (hexBitsPure raw) * 3)
        ≤ ((((hexBitsPure raw).drop 48).length - specKxPad (hexBitsPure raw))
            / (specKxRes (hexBitsPure raw) * 3)) * (specKxRes (hexBitsPure raw) * 3) :=
      Nat.mul_le_mul_right _ (by omega)
    have h3 : ((((hexBitsPure raw).drop 48).length - specKxPad (hexBitsPure raw))
          / (specKxRes (hexBitsPure raw) * 3)) * (specKxRes (hexBitsPure raw) * 3)
        ≤ ((hexBitsPure raw).drop 48).length - specKxPad (hexBitsPure raw) :=
      Nat.div_mul_le_self _ _
    have h4 : i * (specKxRes (hexBitsPure raw) * 3) + specKxRes (hexBitsPure raw) * 3
        = (i + 1) * (specKxRes (hexBitsPure raw) * 3) := by ring
    omega
  show specKxMeas (pySlice ((hexBitsPure raw).drop 48)
      (i * (specKxRes (hexBitsPure raw) * 3))
      (i * (specKxRes (hexBitsPure raw) * 3) + specKxRes (hexBitsPure raw) * 3))
    = specKxMeas (pySlice (((hexBitsPure raw).drop 48).take
        (((hexBitsPure raw).drop 48).length - specKxPad (hexBitsPure raw)))
      (i * (specKxRes (hexBitsPure raw) * 3))
      (i * (specKxRes (hexBitsPure raw) * 3) + specKxRes (hexBitsPure raw) * 3))
  rw [pySlice_take hle]

/-- Claim C3 witness: the amended statement applied to a 20-nibble payload
with one 24-bit chunk and 8 padding bits. -/
theorem claim_C3_witness :
    (KX1341211Data.setup "00000000000100000000".toList).map (fun r => r.measurements)
      = .ok ((List.range ((((hexBitsPure "00000000000100000000".toList).drop 48).length
            - specKxPad (hexBitsPure "00000000000100000000".toList))
              / (specKxRes (hexBitsPure "00000000000100000000".toList) * 3))).map
          (fun i => specKxMeas
            (pySlice (((hexBitsPure "00000000000100000000".toList).drop 48).take
                (((hexBitsPure "00000000000100000000".toList).drop 48).length
                  - specKxPad (hexBitsPure "00000000000100000000".toList)))
              (i * (specKxRes (hexBitsPure "00000000000100000000".toList) * 3))
              (i * (specKxRes (hexBitsPure "00000000000100000000".toList) * 3)
                + specKxRes (hexBitsPure "00000000000100000000".toList) * 3)))) :=
  claim_C3_amended "00000000000100000000".toList (by decide) (by decide)
    (by decide) (by decide)

/-! ## Claim C2: GNSS metadata -/

/-- Satellites flagged in a 32-bit bitmap window: bit `i` set means
satellite `i+1` is in use, in index order. -/
def specSats (bm : List Char) : List ℕ :=
  ((List.range 32).filter (fun i => bm.get? i == some '1')).map (fun i => i + 1)

/-- Satellite-info record fields at their window-relative bit offsets. -/
def specSatInfo (w : List Char) : SatInfo :=
  ⟨bitsVal (pySlice w 0 8), bitsVal (pySlice w 8 16), bitsVal (pySlice w 16 21),
   bitsVal (pySlice w 21 30),
   if w.get? 31 = some '1' then "GLONASS" else "GPS"⟩

/-- The ID-keyed mapping built from the consecutive 32-bit records, in
encounter order with a later duplicate overwriting an earlier one. -/
def specSatDict (bits : List Char) : List (ℕ × SatInfo) :=
  ((List.range (bits.length / 32)).map
    (fun i => specSatInfo (pySlice bits (i * 32) (i * 32 + 32)))).foldl
    (fun m info => dictInsert m info.ID info) []

lemma SatInfo.sat_setup_ok {w : List Char} (hw : w.length = 32)
    (hb : ∀ c ∈ w, isBitC c = true) :
    SatInfo.setup w = .ok (specSatInfo w) := by
  unfold SatInfo.setup specSatInfo
  rw [bin_str_to_int_slice hb (by omega) (by omega),
    bin_str_to_int_slice hb (by omega) (by omega),
    bin_str_to_int_slice hb (by omega) (by omega),
    bin_str_to_int_slice hb (by omega) (by omega)]
  simp only [exceptOkBind]
  rw [pyIndex_ok (show 31 < w.length by omega)]
  simp only [exceptOkBind]
  rw [List.get?_eq_get (show 31 < w.length by omega)]
  simp only [Option.some.injEq]

lemma pySlice_cons_cons (a b : Char) (l : List Char) (m n : ℕ) :
    pySlice (a :: b :: l) (m + 2) (n + 2) = pySlice l m n := by
  unfold pySlice
  have h1 : (a :: b :: l).drop (m + 2) = l.drop m := rfl
  have h2 : n + 2 - (m + 2) = n - m := by omega
  rw [h1, h2]

lemma gnssSatsLoop_ok {g l : List Char} (hg : 32 ≤ g.length) (hl : 32 ≤ l.length) :
    gnssSatsLoop g l = .ok (specSats g, specSats l) := by
  have haux : ∀ k, k ≤ 32 → ∀ acc : List ℕ × List ℕ,
      (List.range k).foldlM (fun acc i => do
          let gc ← pyIndex g i
          let lc ← pyIndex l i
          (Except.ok (if gc = '1' then acc.1 ++ [i + 1] else acc.1,
            if lc = '1' then acc.2 ++ [i + 1] else acc.2)
            : Except DecodeErr (List ℕ × List ℕ))) acc
        = .ok (acc.1 ++ ((List.range k).filter
              (fun i => g.get? i == some '1')).map (fun i => i + 1),
            acc.2 ++ ((List.range k).filter
              (fun i => l.get? i == some '1')).map (fun i => i + 1)) := by
    intro k
    induction k with
    | zero =>
      intro _ acc
      simp
    | succ k ih =>
      intro hk acc
      rw [List.range_succ, List.foldlM_append, ih (by omega) acc]
      rw [exceptOkBind]
      have hgk : k < g.length := by omega
      have hlk : k < l.length := by omega
      simp only [List.foldlM_cons, List.foldlM_nil, pyIndex_ok hgk, pyIndex_ok hlk,
        exceptOkBind, List.filter_append, List.map_append, List.filter_cons,
        List.filter_nil, List.get?_eq_get hgk, List.get?_eq_get hlk]
      simp only [beq_iff_eq, Option.some.injEq]
      split_ifs <;> simp [List.append_assoc]
  unfold gnssSatsLoop specSats
  exact (haux 32 le_rfl ([], [])).trans (by simp)

lemma gnssSatDictLoop_ok {bits : List Char} (hb : ∀ c ∈ bits, isBitC c = true) :
    ∀ k, k ≤ bits.length / 32 → ∀ m : List (ℕ × SatInfo),
      (List.range k).foldlM (fun m i => do
          let meta ← SatInfo.setup (pySlice bits (i * 32) (i * 32 + 32))
          (Except.ok (dictInsert m meta.ID meta)
            : Except DecodeErr (List (ℕ × SatInfo)))) m
        = .ok (((List.range k).map
            (fun i => specSatInfo (pySlice bits (i * 32) (i * 32 + 32)))).foldl
            (fun m info => dictInsert m info.ID info) m) := by
  intro k
  induction k with
  | zero =>
    intro _ m
    simp
  | succ k ih =>
    intro hk m
    have hkk : k * 32 + 32 ≤ bits.length := by
      have := Nat.div_mul_le_self bits.length 32
      have h2 : (k + 1) * 32 ≤ (bits.length / 32) * 32 :=
        Nat.mul_le_mul_right _ (by omega)
      omega
    have hwin : (pySlice bits (k * 32) (k * 32 + 32)).length = 32 := by
      rw [pySlice_full_length (by omega) (by omega)]
      omega
    rw [List.range_succ, List.foldlM_append, ih (by omega) m, exceptOkBind]
    simp only [List.foldlM_cons, List.foldlM_nil,
      SatInfo.sat_setup_ok hwin (pySlice_bits hb), exceptOkBind, exceptPure,
      List.map_append, List.foldl_append, List.map_cons, List.map_nil,
      List.foldl_cons, List.foldl_nil]

lemma pyBin_drop_34 (a b : Char) (l : List Char) :
    pySlice (a :: b :: l) 34 66 = pySlice l 32 64 := by
  unfold pySlice
  have h1 : (a :: b :: l).drop 34 = l.drop 32 := rfl
  rw [h1]

lemma pyBin_drop_66 (a b : Char) (l : List Char) :
    pySlice (a :: b :: l) 66 98 = pySlice l 64 96 := by
  unfold pySlice
  have h1 : (a :: b :: l).drop 66 = l.drop 64 := rfl
  rw [h1]

lemma pyBin_drop_98 (a b : Char) (l : List Char) :
    (a :: b :: l).drop 98 = l.drop 96 := rfl

lemma GNSSMetaData.gnss_setup_ok {raw : List Char}
    (h : ∀ c ∈ raw, isHexDigitC c = true) (hlen : 24 ≤ raw.length)
    (hmsb : 8 ≤ hexCharVal (raw.headD '0')) :
    GNSSMetaData.setup raw = .ok
      ⟨hexVal (pySlice raw 0 8),
       specSats (pySlice (hexBitsPure raw) 32 64),
       specSats (pySlice (hexBitsPure raw) 64 96),
       specSatDict ((hexBitsPure raw).drop 96)⟩ := by
  have hne : raw ≠ [] := by
    intro hc
    rw [hc] at hlen
    simp at hlen
  have hflen : (hexBitsPure raw).length = 4 * raw.length := hexBitsPure_length h
  have hfbits := hexBitsPure_bits h
  have hfval : bitsVal (hexBitsPure raw) = hexVal raw := bitsVal_hexBitsPure h
  have hmsb2 : 2 ^ ((hexBitsPure raw).length - 1) ≤ hexVal raw := by
    cases raw with
    | nil => exact absurd rfl hne
    | cons c t =>
      have hhd : ((c :: t).headD '0') = c := rfl
      rw [hhd] at hmsb
      have h16 : (16 : ℕ) ^ t.length = 2 ^ (4 * t.length) := by
        rw [show (16 : ℕ) = 2 ^ 4 from rfl, ← pow_mul]
      have hlc : (hexBitsPure (c :: t)).length = 4 * t.length + 4 := by
        rw [hflen, List.length_cons]
        ring
      calc 2 ^ ((hexBitsPure (c :: t)).length - 1)
          = 2 ^ (4 * t.length + 3) := by
            have he : 4 * t.length + 4 - 1 = 4 * t.length + 3 := by omega
            rw [hlc, he]
        _ = 8 * 2 ^ (4 * t.length) := by
            rw [pow_add]
            ring
        _ ≤ hexCharVal c * 2 ^ (4 * t.length) :=
            Nat.mul_le_mul_right _ hmsb
        _ = hexCharVal c * 16 ^ t.length := by rw [h16]
        _ ≤ hexVal (c :: t) := by
            rw [hexVal_cons c t]
            omega
  have hpy : pyBin (hexVal raw) = '0' :: 'b' :: hexBitsPure raw :=
    pyBin_eq_full hfbits (by omega) hfval hmsb2
  have h32a : 32 ≤ (pySlice (hexBitsPure raw) 32 64).length := by
    rw [pySlice_full_length (by omega) (by omega)]
  have h32b : 32 ≤ (pySlice (hexBitsPure raw) 64 96).length := by
    rw [pySlice_full_length (by omega) (by omega)]
  unfold GNSSMetaData.setup
  rw [hex_str_to_int_clamped h (by omega) (by omega)]
  simp only [exceptOkBind]
  rw [hex_str_to_int_ok hne h]
  simp only [exceptOkBind]
  rw [hpy, pyBin_drop_34, pyBin_drop_66,
    gnssSatsLoop_ok h32a h32b]
  simp only [exceptOkBind]
  rw [pyBin_drop_98,
    gnssSatDictLoop_ok (fun c hc => hfbits c (List.mem_of_mem_drop hc))
      ((((hexBitsPure raw).drop 96)).length / 32) le_rfl []]
  simp only [exceptOkBind]
  rfl

set_option maxRecDepth 40000 in
/-- Claim C2 counterexample: on the payload `F0000000` + `8` + 17 zeros the
decoder reports GPS satellite 1 in use, while bits [34:66) of the full
4-bits-per-nibble bitstring are all zero (the claimed bitmap window): the
source slices `bin(int(raw,16))`, whose `0b` prefix and stripped leading
zeros shift the window, so the claimed indices are wrong for the full
bitstring. -/
theorem claim_C2_counterexample :
    (GNSSMetaData.setup ("F00000008".toList ++ List.replicate 17 '0')).map
        (fun r => r.gps_sats_in_use)
      ≠ .ok (specSats (pySlice
          (hexBitsPure ("F00000008".toList ++ List.replicate 17 '0')) 34 66))
    ∧ (GNSSMetaData.setup ("F00000008".toList ++ List.replicate 17 '0')).map
        (fun r => r.gps_sats_in_use) = .ok [1]
    ∧ specSats (pySlice
        (hexBitsPure ("F00000008".toList ++ List.replicate 17 '0')) 34 66)
      = [] := by
  exact ⟨by decide, by decide, by decide⟩

/-- Claim C2 as amended: the decoder slices the string
`bin(int(raw, 16))` — the `0b` prefix followed by the *minimal* binary
expansion — at [34:66), [66:98) and [98:). When the payload's first nibble
has its top bit set (no leading zeros are stripped), this reads the GPS
bitmap from bits [32:64) of the full bitstring, the GLONASS bitmap from
bits [64:96) (bit `i` set means satellite `i+1` in use), and partitions the
remainder from bit 96 into `len/32` consecutive 32-bit records (elevation
bits [0:8), SNR [8:16), id [16:21), azimuth [21:30), type from window bit
31), inserted in encounter order with a later duplicate ID overwriting an
earlier one. -/
theorem claim_C2_amended :
    ∀ raw : List Char, (∀ c ∈ raw, isHexDigitC c = true) → 24 ≤ raw.length →
      8 ≤ hexCharVal (raw.headD '0') →
      GNSSMetaData.setup raw = .ok
        ⟨hexVal (pySlice raw 0 8),
         specSats (pySlice (hexBitsPure raw) 32 64),
         specSats (pySlice (hexBitsPure raw) 64 96),
         specSatDict ((hexBitsPure raw).drop 96)⟩ :=
  fun _ h hlen hmsb => GNSSMetaData.gnss_setup_ok h hlen hmsb

set_option maxRecDepth 40000 in
/-- Claim C2 witness: the amended statement applied to the 26-nibble
payload `8` followed by 25 zeros. -/
theorem claim_C2_witness :
    GNSSMetaData.setup ('8' :: List.replicate 25 '0') = .ok
      ⟨hexVal (pySlice ('8' :: List.replicate 25 '0') 0 8),
       specSats (pySlice (hexBitsPure ('8' :: List.replicate 25 '0')) 32 64),
       specSats (pySlice (hexBitsPure ('8' :: List.replicate 25 '0')) 64 96),
       specSatDict ((hexBitsPure ('8' :: List.replicate 25 '0')).drop 96)⟩ :=
  claim_C2_amended ('8' :: List.replicate 25 '0') (by decide) (by decide)
    (by decide)
